import Mathlib

/-! hardware-test: command codecs and the lock-board polling loop.

A shallow embedding of the Go packages `pkg/lock`, `pkg/rfid` and `pkg/screen`.

* A Go `string` and a Go `[]byte` are lists of bytes, a byte being a `Nat` below 256.
  Byte arithmetic that can wrap carries an explicit `% 256`, `uint16` arithmetic `% 65536`.
* A Go run-time panic (index out of range) is `none`.
* `fmt.Sprintf("%0wX", n)` is `fmtX w n` (and `fmtXInt` for a signed argument).
-/

namespace HardwareTest

/-! ## Go strings and `fmt.Sprintf("%0wX", _)` -/

/-- The bytes of an ASCII string literal of the source. -/
def lit (s : String) : List Nat := s.toList.map Char.toNat

/-- The upper-case hexadecimal digit (as an ASCII byte) of a value below 16. -/
def hexDigit (d : Nat) : Nat := if d < 10 then 48 + d else 55 + d

/-- The lower-case hexadecimal digit (as an ASCII byte) of a value below 16. -/
def hexDigitLower (d : Nat) : Nat := if d < 10 then 48 + d else 87 + d

/-- Upper-case hexadecimal digits of `n`, most significant first, without padding.
Go integers have at most 64 bits, hence at most 16 digits: callers pass fuel 16. -/
def hexDigits : Nat → Nat → List Nat
  | 0, _ => []
  | fuel + 1, n => if n < 16 then [hexDigit n] else hexDigits fuel (n / 16) ++ [hexDigit (n % 16)]

/-- The result of `fmt.Sprintf("%0wX", n)` for a non-negative integer `n`:
upper-case hex, left-padded with zeros to at least `w` characters. -/
def fmtX (w n : Nat) : List Nat :=
  let ds := hexDigits 16 n
  List.replicate (w - ds.length) 48 ++ ds

/-- The result of `fmt.Sprintf("%0wX", n)` for a Go `int`: a negative value prints a
minus sign, which counts in the width, before the zero-padded digits. -/
def fmtXInt (w : Nat) (n : Int) : List Nat :=
  if n < 0 then 45 :: fmtX (w - 1) n.natAbs else fmtX w n.toNat

/-- Hex encoding of a byte sequence, two upper-case digits per byte. -/
def hexEncode (bs : List Nat) : List Nat :=
  bs.flatMap fun b => [hexDigit (b / 16), hexDigit (b % 16)]

/-- Hex encoding of a byte sequence, two lower-case digits per byte. -/
def hexEncodeLower (bs : List Nat) : List Nat :=
  bs.flatMap fun b => [hexDigitLower (b / 16), hexDigitLower (b % 16)]

/-- The loop `for i := 0; i < len(s); i += 2 { bytes[i/2] = parse(s, i) }` shared by
`lock.generateCommand`, `rfid.hexToBytes` and `screen.hexToBytes`, started at index `i`.
A panic inside `parse` aborts the loop; running out of fuel is `none` as well. -/
def bytesLoop (parse : List Nat → Nat → Option Nat) (s : List Nat) : Nat → Nat → Option (List Nat)
  | 0, _ => none
  | fuel + 1, i =>
    if i < s.length then
      match parse s i with
      | none => none
      | some b =>
        match bytesLoop parse s fuel (i + 2) with
        | none => none
        | some rest => some (b :: rest)
    else some []

/-- XOR of all bytes of a sequence (0 for the empty sequence). -/
def xorAll (bs : List Nat) : Nat := bs.foldl (· ^^^ ·) 0

/-! ## Package `lock` -/

namespace lock

/-- Embeds `parseHexByte` of `pkg/lock/lock.go`: the byte denoted by the two characters
`s[i]`, `s[i+1]`; a character that is no hex digit contributes 0. -/
def parseHexByte (s : List Nat) (i : Nat) : Option Nat :=
  match s[i]?, s[i + 1]? with
  | some b1, some b2 =>
    let v :=
      if 48 ≤ b1 ∧ b1 ≤ 57 then ((b1 - 48) <<< 4) % 256
      else if 65 ≤ b1 ∧ b1 ≤ 70 then ((b1 - 65 + 10) <<< 4) % 256
      else if 97 ≤ b1 ∧ b1 ≤ 102 then ((b1 - 97 + 10) <<< 4) % 256
      else 0
    let v :=
      if 48 ≤ b2 ∧ b2 ≤ 57 then v ||| (b2 - 48)
      else if 65 ≤ b2 ∧ b2 ≤ 70 then v ||| (b2 - 65 + 10)
      else if 97 ≤ b2 ∧ b2 ≤ 102 then v ||| (b2 - 97 + 10)
      else v
    some v
  | _, _ => none

/-- Embeds `generateCommand` of `pkg/lock/lock.go`: parse the hex string, start the checksum
at `bytes[0]` (a panic on an empty slice), XOR the other bytes in, append the checksum. -/
def generateCommand (hexCmd : List Nat) : Option (List Nat) :=
  match bytesLoop parseHexByte hexCmd (hexCmd.length + 1) 0 with
  | none => none
  | some bytes =>
    match bytes with
    | [] => none
    | b0 :: rest =>
      let checksum := rest.foldl (· ^^^ ·) b0
      some (bytes ++ [checksum])

/-- Embeds `generateQueryCommand` of `pkg/lock/lock.go`. -/
def generateQueryCommand : Option (List Nat) :=
  generateCommand (lit "80010033")

/-- Embeds `generateQueryAllCommand` of `pkg/lock/lock.go`. -/
def generateQueryAllCommand (boardAddr : Int) : Option (List Nat) :=
  let boardHex := fmtXInt 2 boardAddr
  let hexCmd := lit "80" ++ boardHex ++ lit "01"
  generateCommand hexCmd

/-- Embeds `generateOpenCommand` of `pkg/lock/lock.go`. -/
def generateOpenCommand (boardAddr lockAddr : Int) : Option (List Nat) :=
  let boardHex := fmtXInt 2 boardAddr
  let lockHex := fmtXInt 2 lockAddr
  let hexCmd := lit "8A" ++ boardHex ++ lockHex ++ lit "11"
  generateCommand hexCmd

end lock

/-! ## The lock controller and its connection handle -/

namespace lock

/-- An error value returned by the lock package. -/
inductive Err where
  /-- The error `fmt.Errorf("未连接")` (not connected). -/
  | notConnected
  /-- An error returned by the serial port or socket, identified by a code. -/
  | io (code : Nat)
  /-- The error of `QueryAll` wrapping a failed write for a board address. -/
  | queryFailed (boardAddr : Nat) (cause : Err)
  /-- The error of `QueryAll` wrapping a failed read for a board address. -/
  | readFailed (boardAddr : Nat) (cause : Err)
  /-- The error of `connectSerial` wrapping a failed `serial.OpenPort`. -/
  | serialConnectFailed (cause : Err)
  /-- The error of `connectSocket` (and of `rfid.Connect`) wrapping a failed dial. -/
  | socketConnectFailed (cause : Err)
  /-- The error of `TestConnection` wrapping a failed read of the response. -/
  | responseFailed (cause : Err)
  /-- The error `fmt.Errorf("无响应")` (no response) of `TestConnection`. -/
  | noResponse
  deriving DecidableEq, Repr

/-- An operation performed on a connection handle. -/
inductive Op where
  | write (data : List Nat)
  | read (bufLen : Nat)
  | flush
  | setReadDeadline
  | close
  deriving DecidableEq, Repr

/-- A connection handle (`*serial.Port` or `net.Conn`) together with the behaviour of the
transport behind it: `wr i` is the error of the `i`-th write on the handle (`none` when it
succeeds), `rd i` the bytes delivered by the `i`-th read and its error. The handle counts
the writes and reads made so far and logs every operation. -/
structure Conn where
  wr : Nat → Option Nat
  rd : Nat → List Nat × Option Nat
  nWrites : Nat
  nReads : Nat
  log : List Op

/-- The method `Write` of a handle: the whole frame is written unless the transport fails. -/
def Conn.write (h : Conn) (data : List Nat) : (Nat × Option Err) × Conn :=
  let h1 := { h with nWrites := h.nWrites + 1, log := h.log ++ [Op.write data] }
  match h.wr h.nWrites with
  | none => ((data.length, none), h1)
  | some code => ((0, some (Err.io code)), h1)

/-- The method `Read` of a handle on a buffer of `bufLen` zero bytes: at most `bufLen`
bytes are delivered; the result is the count, the buffer afterwards and the error. -/
def Conn.read (h : Conn) (bufLen : Nat) : (Nat × List Nat × Option Err) × Conn :=
  let h1 := { h with nReads := h.nReads + 1, log := h.log ++ [Op.read bufLen] }
  let data := (h.rd h.nReads).1.take bufLen
  let buf := data ++ List.replicate (bufLen - data.length) 0
  match (h.rd h.nReads).2 with
  | none => ((data.length, buf, none), h1)
  | some code => ((data.length, buf, some (Err.io code)), h1)

/-- An operation without a result that the code looks at (`Flush`, `SetReadDeadline`). -/
def Conn.note (h : Conn) (op : Op) : Conn := { h with log := h.log ++ [op] }

/-- Embeds `LockStatus` of `pkg/lock/lock.go`. -/
structure LockStatus where
  BoardAddr : Nat
  Data : List Nat
  Length : Nat
  deriving DecidableEq, Repr

/-- Embeds `ConnectionType` of `pkg/lock/lock.go`. -/
inductive ConnectionType where
  | TypeSerial
  | TypeSocket
  deriving DecidableEq, Repr

/-- Embeds `Controller` of `pkg/lock/lock.go`. -/
structure Controller where
  connType : ConnectionType
  path : String
  baudRate : Int
  port : Int
  socketConn : Option Conn
  serialConn : Option Conn
  isConnected : Bool

/-- Embeds `Controller.Write` of `pkg/lock/lock.go`. -/
def Controller.Write (c : Controller) (data : List Nat) : (Nat × Option Err) × Controller :=
  if !c.isConnected then ((0, some Err.notConnected), c)
  else
    match c.serialConn with
    | some h =>
      let (r, h1) := h.write data
      (r, { c with serialConn := some h1 })
    | none =>
      match c.socketConn with
      | some h =>
        let (r, h1) := h.write data
        (r, { c with socketConn := some h1 })
      | none => ((0, some Err.notConnected), c)

/-- Embeds `Controller.Read` of `pkg/lock/lock.go` on a fresh buffer of `bufLen` bytes. -/
def Controller.Read (c : Controller) (bufLen : Nat) :
    (Nat × List Nat × Option Err) × Controller :=
  if !c.isConnected then ((0, List.replicate bufLen 0, some Err.notConnected), c)
  else
    match c.serialConn with
    | some h =>
      let (r, h1) := h.read bufLen
      (r, { c with serialConn := some h1 })
    | none =>
      match c.socketConn with
      | some h =>
        let (r, h1) := h.read bufLen
        (r, { c with socketConn := some h1 })
      | none => ((0, List.replicate bufLen 0, some Err.notConnected), c)

/-- The step of `QueryAll` between write and read: flush the serial port, or else set the
read deadline of the socket. -/
def Controller.prepareRead (c : Controller) : Controller :=
  match c.serialConn with
  | some h => { c with serialConn := some (h.note Op.flush) }
  | none =>
    match c.socketConn with
    | some h => { c with socketConn := some (h.note Op.setReadDeadline) }
    | none => c

/-- The loop `for boardAddr := 1; boardAddr <= 8; boardAddr++` of `QueryAll`, entered at
`boardAddr` with the statuses collected so far. The result is what `QueryAll` returns and
the controller afterwards; `none` is a panic or no fuel. -/
def queryAllLoop : Nat → Nat → List LockStatus → Controller →
    Option ((List LockStatus × Option Err) × Controller)
  | 0, _, _, _ => none
  | fuel + 1, boardAddr, allStatus, c =>
    if boardAddr ≤ 8 then
      match generateQueryAllCommand boardAddr with
      | none => none
      | some cmd =>
        match c.Write cmd with
        | ((_, some err), c1) => some (([], some (Err.queryFailed boardAddr err)), c1)
        | ((_, none), c1) =>
          let c2 := c1.prepareRead
          match c2.Read 256 with
          | ((_, _, some err), c3) => some (([], some (Err.readFailed boardAddr err)), c3)
          | ((n, buf, none), c3) =>
            let allStatus :=
              if n > 0 then
                allStatus ++ [{ BoardAddr := boardAddr, Data := buf.take n, Length := n }]
              else allStatus
            queryAllLoop fuel (boardAddr + 1) allStatus c3
    else some ((allStatus, none), c)

/-- Embeds `Controller.QueryAll` of `pkg/lock/lock.go`. -/
def Controller.QueryAll (c : Controller) :
    Option ((List LockStatus × Option Err) × Controller) :=
  if !c.isConnected then some (([], some Err.notConnected), c)
  else queryAllLoop 9 1 [] c

/-- The handle that `Write` and `Read` use: the serial port if there is one, else the
socket. -/
def Controller.handle (c : Controller) : Option Conn :=
  match c.serialConn with
  | some h => some h
  | none => c.socketConn

/-- The operations logged on the handle in use (none without a handle). -/
def Controller.ops (c : Controller) : List Op :=
  match c.handle with
  | some h => h.log
  | none => []

/-- A controller connected over a socket to a fresh handle with the given behaviour. -/
def socketController (wr : Nat → Option Nat) (rd : Nat → List Nat × Option Nat) : Controller :=
  { connType := ConnectionType.TypeSocket, path := "192.168.1.10", baudRate := 0, port := 8080,
    socketConn := some { wr := wr, rd := rd, nWrites := 0, nReads := 0, log := [] },
    serialConn := none, isConnected := true }

end lock

/-! ## Package `rfid` -/

namespace rfid

/-- Embeds `parseHexByte` of `pkg/rfid/rfid.go`: a character outside `'0'..'9'` is taken
to be an upper-case letter, in wrapping byte arithmetic. -/
def parseHexByte (s : List Nat) (i : Nat) : Option Nat :=
  match s[i]?, s[i + 1]? with
  | some b1, some b2 =>
    let v :=
      if 48 ≤ b1 ∧ b1 ≤ 57 then ((b1 - 48) <<< 4) % 256
      else (((b1 + 256 - 65 + 10) % 256) <<< 4) % 256
    let v :=
      if 48 ≤ b2 ∧ b2 ≤ 57 then v ||| (b2 - 48)
      else v ||| ((b2 + 256 - 65 + 10) % 256)
    some v
  | _, _ => none

/-- The inner loop `for j := 0; j < 8; j++` of `calculateCRC`, with `n` rounds left,
on a `uint16` register. -/
def crcShift : Nat → Nat → Nat
  | 0, crc => crc
  | n + 1, crc =>
    if crc &&& 0x8000 ≠ 0 then crcShift n (((crc <<< 1) % 65536) ^^^ 0x1021)
    else crcShift n ((crc <<< 1) % 65536)

/-- The outer loop `for i := 0; i < len(hexStr); i += 2` of `calculateCRC`, started at
index `i` with register `crc`; `none` is a panic of `parseHexByte` (or no fuel). -/
def crcLoop (hexStr : List Nat) : Nat → Nat → Nat → Option Nat
  | 0, _, _ => none
  | fuel + 1, i, crc =>
    if i < hexStr.length then
      match parseHexByte hexStr i with
      | none => none
      | some b => crcLoop hexStr fuel (i + 2) (crcShift 8 (crc ^^^ ((b <<< 8) % 65536)))
    else some crc

/-- Embeds `calculateCRC` of `pkg/rfid/rfid.go`: the register printed with `%04X`. -/
def calculateCRC (hexStr : List Nat) : Option (List Nat) :=
  match crcLoop hexStr (hexStr.length + 1) 0 0xFFFF with
  | none => none
  | some crc => some (fmtX 4 crc)

/-- Embeds `hexToBytes` of `pkg/rfid/rfid.go`. -/
def hexToBytes (hexStr : List Nat) : Option (List Nat) :=
  bytesLoop parseHexByte hexStr (hexStr.length + 1) 0

/-- Embeds `buildRFIDCommand` of `pkg/rfid/rfid.go`; `cmdType` is a `uint16`. -/
def buildRFIDCommand (_cmdType : Nat) (dataParams : List Nat) : Option (List Nat) :=
  let command := lit "5A00000100"
  let dataLen := dataParams.length / 2
  let lengthHex := fmtX 4 dataLen
  let command := command ++ lengthHex
  let command := command ++ dataParams
  match calculateCRC command with
  | none => none
  | some crc =>
    let command := command ++ crc
    hexToBytes command

/-- Embeds `generateStopCommand` of `pkg/rfid/rfid.go`. -/
def generateStopCommand : Option (List Nat) := buildRFIDCommand 0xFF (lit "")

/-- The mask loop of `generateReadEPCCommand`: a `uint32` accumulator over the antenna
list, an index outside `1..32` leaving it unchanged. -/
def antennaMask (antennas : List Int) : Nat :=
  antennas.foldl
    (fun (mask : Nat) (ant : Int) =>
      if 1 ≤ ant ∧ ant ≤ 32 then mask ||| ((1 <<< (ant - 1).toNat) % 4294967296) else mask)
    0

/-- The `dataParams` string that `generateReadEPCCommand` hands to `buildRFIDCommand`. -/
def readEPCDataParams (antennas : List Int) : List Nat :=
  fmtX 8 (antennaMask antennas) ++ lit "01" ++ lit "02" ++ lit "0006"

/-- Embeds `generateReadEPCCommand` of `pkg/rfid/rfid.go`. -/
def generateReadEPCCommand (antennas : List Int) : Option (List Nat) :=
  buildRFIDCommand 0x10 (readEPCDataParams antennas)

/-- Embeds `generateQueryPowerCommand` of `pkg/rfid/rfid.go`. -/
def generateQueryPowerCommand : Option (List Nat) := buildRFIDCommand 0x02 (lit "")

end rfid

/-! ## CRC-16/CCITT-FALSE as the specification words it -/

/-- One bit of the MSB-first division by the polynomial `0x1021` on a 16-bit register:
shift left by one and, when a one is shifted out, add (XOR) the polynomial. -/
def crc16Bit (reg : Nat) : Nat :=
  if 65536 ≤ 2 * reg then (2 * reg - 65536) ^^^ 0x1021 else 2 * reg

/-- One byte: XOR it into the high byte of the register, then divide eight bits. -/
def crc16Byte (reg b : Nat) : Nat :=
  crc16Bit (crc16Bit (crc16Bit (crc16Bit (crc16Bit (crc16Bit (crc16Bit (crc16Bit
    (reg ^^^ (b * 256)))))))))

/-- CRC-16/CCITT-FALSE of a raw byte sequence: polynomial `0x1021`, initial value
`0xFFFF`, most significant bit first, no final XOR. -/
def crc16CcittFalse (bs : List Nat) : Nat := bs.foldl crc16Byte 0xFFFF

/-- Big-endian two-byte representation of a 16-bit value. -/
def be16 (n : Nat) : List Nat := [n / 256 % 256, n % 256]

/-- Big-endian four-byte representation of a 32-bit value. -/
def be32 (n : Nat) : List Nat := [n / 16777216 % 256, n / 65536 % 256, n / 256 % 256, n % 256]

/-! ## Package `screen` -/

/-- The rune and the byte width that Go's `for _, c := range s` yields at the head of a
string: UTF-8 decoding, an ill-formed sequence giving U+FFFD with width 1. -/
def decodeRune : List Nat → Nat × Nat
  | [] => (0xFFFD, 0)
  | s0 :: rest =>
    if s0 < 0x80 then (s0, 1)
    else if s0 < 0xC2 then (0xFFFD, 1)
    else if s0 < 0xE0 then
      match rest with
      | s1 :: _ =>
        if 0x80 ≤ s1 ∧ s1 ≤ 0xBF then (s0 % 32 * 64 + s1 % 64, 2) else (0xFFFD, 1)
      | _ => (0xFFFD, 1)
    else if s0 < 0xF0 then
      let lo := if s0 = 0xE0 then 0xA0 else 0x80
      let hi := if s0 = 0xED then 0x9F else 0xBF
      match rest with
      | s1 :: s2 :: _ =>
        if lo ≤ s1 ∧ s1 ≤ hi ∧ 0x80 ≤ s2 ∧ s2 ≤ 0xBF then
          (s0 % 16 * 4096 + s1 % 64 * 64 + s2 % 64, 3)
        else (0xFFFD, 1)
      | _ => (0xFFFD, 1)
    else if s0 < 0xF5 then
      let lo := if s0 = 0xF0 then 0x90 else 0x80
      let hi := if s0 = 0xF4 then 0x8F else 0xBF
      match rest with
      | s1 :: s2 :: s3 :: _ =>
        if lo ≤ s1 ∧ s1 ≤ hi ∧ 0x80 ≤ s2 ∧ s2 ≤ 0xBF ∧ 0x80 ≤ s3 ∧ s3 ≤ 0xBF then
          (s0 % 8 * 262144 + s1 % 64 * 4096 + s2 % 64 * 64 + s3 % 64, 4)
        else (0xFFFD, 1)
      | _ => (0xFFFD, 1)
    else (0xFFFD, 1)

/-- The bytes of Go's `[]byte(string(c))` for a rune `c`: its UTF-8 encoding, a surrogate
or a value above U+10FFFF being replaced by U+FFFD. -/
def encodeRune (c : Nat) : List Nat :=
  if c ≤ 0x7F then [c]
  else if c ≤ 0x7FF then [0xC0 + c / 64, 0x80 + c % 64]
  else if 0x10FFFF < c ∨ (0xD800 ≤ c ∧ c ≤ 0xDFFF) then [0xEF, 0xBF, 0xBD]
  else if c ≤ 0xFFFF then [0xE0 + c / 4096, 0x80 + c / 64 % 64, 0x80 + c % 64]
  else [0xF0 + c / 262144, 0x80 + c / 4096 % 64, 0x80 + c / 64 % 64, 0x80 + c % 64]

/-- A Unicode scalar value: a code point up to U+10FFFF that is no surrogate. -/
def isScalar (c : Nat) : Prop := c < 0xD800 ∨ (0xE000 ≤ c ∧ c ≤ 0x10FFFF)

instance (c : Nat) : Decidable (isScalar c) := by unfold isScalar; infer_instance

/-- The UTF-8 encoding of a sequence of code points. -/
def utf8 (cs : List Nat) : List Nat := cs.flatMap encodeRune

namespace screen

/-- The loop `for _, c := range s` of `stringToGBKHex` on the rest `s` of the string;
each round consumes at least one byte, so fuel `len(s)` suffices. -/
def rangeLoop : Nat → List Nat → Option (List Nat)
  | _, [] => some []
  | 0, _ :: _ => none
  | fuel + 1, s0 :: rest =>
    let (c, size) := decodeRune (s0 :: rest)
    let piece := if c < 128 then fmtX 2 c else (encodeRune c).flatMap (fmtX 2)
    match rangeLoop fuel ((s0 :: rest).drop size) with
    | none => none
    | some more => some (piece ++ more)

/-- Embeds `stringToGBKHex` of `pkg/screen/screen.go`. -/
def stringToGBKHex (s : List Nat) : Option (List Nat) := rangeLoop s.length s

/-- The body of the loop of `hexToBytes` of `pkg/screen/screen.go`: the byte denoted by
`hexStr[i]`, `hexStr[i+1]`. -/
def hexPairAt (hexStr : List Nat) (i : Nat) : Option Nat :=
  match hexStr[i]?, hexStr[i + 1]? with
  | some b1, some b2 =>
    let b :=
      if 48 ≤ b1 ∧ b1 ≤ 57 then ((b1 - 48) <<< 4) % 256
      else if 65 ≤ b1 ∧ b1 ≤ 70 then ((b1 - 65 + 10) <<< 4) % 256
      else if 97 ≤ b1 ∧ b1 ≤ 102 then ((b1 - 97 + 10) <<< 4) % 256
      else 0
    let b :=
      if 48 ≤ b2 ∧ b2 ≤ 57 then b ||| (b2 - 48)
      else if 65 ≤ b2 ∧ b2 ≤ 70 then b ||| (b2 - 65 + 10)
      else if 97 ≤ b2 ∧ b2 ≤ 102 then b ||| (b2 - 97 + 10)
      else b
    some b
  | _, _ => none

/-- Embeds `hexToBytes` of `pkg/screen/screen.go`. -/
def hexToBytes (hexStr : List Nat) : Option (List Nat) :=
  bytesLoop hexPairAt hexStr (hexStr.length + 1) 0

/-- Embeds `generateCommand` of `pkg/screen/screen.go`. -/
def generateCommand (cmdID command : List Nat) : Option (List Nat) :=
  match stringToGBKHex command with
  | none => none
  | some dataHex =>
    let frame := lit "EE" ++ cmdID ++ dataHex ++ lit "FF"
    let length := frame.length / 2 - 1
    let lengthHex := fmtX 2 length
    let fullCmd := lit "EE" ++ lengthHex ++ frame ++ lit "FC"
    hexToBytes fullCmd

end screen

/-- A character that is a hexadecimal digit, upper or lower case. -/
def isHexChar (c : Nat) : Prop := (48 ≤ c ∧ c ≤ 57) ∨ (65 ≤ c ∧ c ≤ 70) ∨ (97 ≤ c ∧ c ≤ 102)

instance (c : Nat) : Decidable (isHexChar c) := by unfold isHexChar; infer_instance

/-- The value of a hexadecimal digit character. -/
def hexVal (c : Nat) : Nat :=
  if c ≤ 57 then c - 48 else if c ≤ 70 then c - 55 else c - 87

/-- The three-way switch of `lock.parseHexByte` on a pair of characters. -/
def switchPair (b1 b2 : Nat) : Nat :=
  let v :=
    if 48 ≤ b1 ∧ b1 ≤ 57 then ((b1 - 48) <<< 4) % 256
    else if 65 ≤ b1 ∧ b1 ≤ 70 then ((b1 - 65 + 10) <<< 4) % 256
    else if 97 ≤ b1 ∧ b1 ≤ 102 then ((b1 - 97 + 10) <<< 4) % 256
    else 0
  if 48 ≤ b2 ∧ b2 ≤ 57 then v ||| (b2 - 48)
  else if 65 ≤ b2 ∧ b2 ≤ 70 then v ||| (b2 - 65 + 10)
  else if 97 ≤ b2 ∧ b2 ≤ 102 then v ||| (b2 - 97 + 10)
  else v

/-- The `w` low hexadecimal digits of `n`, most significant first, upper case. -/
def fixedDigits : Nat → Nat → List Nat
  | 0, _ => []
  | w + 1, n => fixedDigits w (n / 16) ++ [hexDigit (n % 16)]

/-- The two branches of `rfid.parseHexByte` on a pair of characters. -/
def rfidPair (b1 b2 : Nat) : Nat :=
  let v :=
    if 48 ≤ b1 ∧ b1 ≤ 57 then ((b1 - 48) <<< 4) % 256
    else (((b1 + 256 - 65 + 10) % 256) <<< 4) % 256
  if 48 ≤ b2 ∧ b2 ≤ 57 then v ||| (b2 - 48)
  else v ||| ((b2 + 256 - 65 + 10) % 256)

namespace lock

/-- The controller with its handle in use replaced (unchanged without a handle). -/
def Controller.withHandle (c : Controller) (h : Conn) : Controller :=
  match c.serialConn with
  | some _ => { c with serialConn := some h }
  | none =>
    match c.socketConn with
    | some _ => { c with socketConn := some h }
    | none => c

/-- The operation by which `QueryAll` prepares a read: `Flush` on a serial port,
`SetReadDeadline` on a socket. -/
def Controller.prepOp (c : Controller) : Op :=
  match c.serialConn with
  | some _ => Op.flush
  | none => Op.setReadDeadline

/-- The query frame for a board address: `80, b, 01` and the XOR of the three. -/
def queryFrame (b : Nat) : List Nat := [0x80, b, 0x01, 0x80 ^^^ b ^^^ 0x01]

/-- The operations of one complete exchange with a board: write the query frame, prepare
the read, read into a buffer of 256 bytes. -/
def boardOps (prep : Op) (b : Nat) : List Op := [Op.write (queryFrame b), prep, Op.read 256]

/-- The operations of `d` complete exchanges, with boards `a`, `a + 1`, ... in this order. -/
def exchangeOps (prep : Op) : Nat → Nat → List Op
  | _, 0 => []
  | a, d + 1 => boardOps prep a ++ exchangeOps prep (a + 1) d

/-- The handle after one complete exchange with board `b`. -/
def Conn.afterExchange (h : Conn) (prep : Op) (b : Nat) : Conn :=
  { h with nWrites := h.nWrites + 1, nReads := h.nReads + 1, log := h.log ++ boardOps prep b }

/-- The handle after a write of the query frame for board `b`. -/
def Conn.afterWrite (h : Conn) (b : Nat) : Conn :=
  { h with nWrites := h.nWrites + 1, log := h.log ++ [Op.write (queryFrame b)] }

/-- The write or the read that `QueryAll` issues for board address `j` on a handle in
the state `h` fails: the polling loop makes one write and one read per board, so board
`j` gets the write and the read number `j - 1` from now. -/
def Conn.boardFails (h : Conn) (j : Nat) : Prop :=
  h.wr (h.nWrites + (j - 1)) ≠ none ∨ (h.rd (h.nReads + (j - 1))).2 ≠ none

instance (h : Conn) (j : Nat) : Decidable (h.boardFails j) := by
  unfold Conn.boardFails; infer_instance

/-- The status entry for board `b` when the read with index `r` of the handle delivers
data: none for an empty read, else the board address, the bytes (at most 256) and their
number. -/
def statusOf (rd : Nat → List Nat × Option Nat) (r b : Nat) : Option LockStatus :=
  if 0 < ((rd r).1.take 256).length then
    some { BoardAddr := b, Data := (rd r).1.take 256, Length := ((rd r).1.take 256).length }
  else none

/-- The statuses of `n` boards `a`, `a + 1`, ... answered by the reads `r`, `r + 1`, ... -/
def collected (rd : Nat → List Nat × Option Nat) : Nat → Nat → Nat → List LockStatus
  | _, _, 0 => []
  | r, a, n + 1 => (statusOf rd r a).toList ++ collected rd (r + 1) (a + 1) n

/-- A transport on which every write succeeds and every read delivers two bytes, except
that the read for board 4 (read number 3) fails with error code 9. -/
def readErrorAtBoard4 : Controller :=
  socketController (fun _ => none) (fun i => if i = 3 then ([], some 9) else ([0x80, i + 1], none))

/-- A transport on which every write and read succeeds and every read delivers two bytes,
except that the read for board 5 (read number 4) delivers none. -/
def board5Absent : Controller :=
  socketController (fun _ => none) (fun i => if i = 4 then ([], none) else ([0x80, i + 1], none))

/-! ### Connecting, disconnecting and the connection test

The environment of these methods is given as arguments: `dial` is what opening the port
or dialling the socket yields (an error code or a handle with the behaviour of the
transport behind it), `closeErr` the error with which `Close` answers on a handle in a
given state (`none` when it succeeds). The same handle and error types serve the packages
`rfid` and `screen`. -/

/-- The method `Close` of a handle. -/
def Conn.close (h : Conn) (closeErr : Conn → Option Nat) : Option Err × Conn :=
  ((closeErr h).map Err.io, h.note Op.close)

/-- Embeds `NewController` of `pkg/lock/lock.go`. -/
def NewController (connType : ConnectionType) (path : String) (baudRate port : Int) :
    Controller :=
  { connType := connType, path := path, baudRate := baudRate, port := port,
    socketConn := none, serialConn := none, isConnected := false }

/-- Embeds `Controller.connectSerial` of `pkg/lock/lock.go`. -/
def Controller.connectSerial (c : Controller) (dial : Except Nat Conn) :
    Option Err × Controller :=
  match dial with
  | Except.error code => (some (Err.serialConnectFailed (Err.io code)), c)
  | Except.ok conn => (none, { c with serialConn := some conn, isConnected := true })

/-- Embeds `Controller.connectSocket` of `pkg/lock/lock.go`. -/
def Controller.connectSocket (c : Controller) (dial : Except Nat Conn) :
    Option Err × Controller :=
  match dial with
  | Except.error code => (some (Err.socketConnectFailed (Err.io code)), c)
  | Except.ok conn => (none, { c with socketConn := some conn, isConnected := true })

/-- Embeds `Controller.Connect` of `pkg/lock/lock.go`. -/
def Controller.Connect (c : Controller) (dial : Except Nat Conn) : Option Err × Controller :=
  if c.connType = ConnectionType.TypeSerial then c.connectSerial dial
  else c.connectSocket dial

/-- Embeds `Controller.Disconnect` of `pkg/lock/lock.go`. The result is the error, the
handles the call closed (in their state after `Close`) and the controller afterwards. -/
def Controller.Disconnect (closeErr : Conn → Option Nat) (c : Controller) :
    (Option Err × List Conn) × Controller :=
  if !c.isConnected then ((none, []), c)
  else
    let s1 : Option Err × List Conn × Controller :=
      match c.serialConn with
      | some h => ((h.close closeErr).1, [(h.close closeErr).2], { c with serialConn := none })
      | none => (none, [], c)
    let s2 : Option Err × List Conn × Controller :=
      match s1.2.2.socketConn with
      | some h =>
        ((match s1.1 with
          | none => (h.close closeErr).1
          | some err => some err),
         s1.2.1 ++ [(h.close closeErr).2], { s1.2.2 with socketConn := none })
      | none => s1
    ((s2.1, s2.2.1), { s2.2.2 with isConnected := false })

/-- Embeds `Controller.Query` of `pkg/lock/lock.go`; `none` is a panic. -/
def Controller.Query (c : Controller) : Option (Option Err × Controller) :=
  if !c.isConnected then some (some Err.notConnected, c)
  else
    match generateQueryCommand with
    | none => none
    | some cmd => some ((c.Write cmd).1.2, (c.Write cmd).2)

/-- The statement of `TestConnection` that flushes the serial port when there is one. -/
def Controller.flushSerial (c : Controller) : Controller :=
  match c.serialConn with
  | some h => { c with serialConn := some (h.note Op.flush) }
  | none => c

/-- The statement of `TestConnection` that sets the read deadline of the socket when
there is no serial port. -/
def Controller.deadlineSocket (c : Controller) : Controller :=
  match c.serialConn with
  | some _ => c
  | none =>
    match c.socketConn with
    | some h => { c with socketConn := some (h.note Op.setReadDeadline) }
    | none => c

/-- The rest of `TestConnection` once `Connect` has succeeded, before the deferred
`Disconnect`: the pair to return and the controller at that point; `none` is a panic. -/
def Controller.probe (c : Controller) : Option ((Bool × Option Err) × Controller) :=
  match c.Query with
  | none => none
  | some (some err, c2) => some ((false, some err), c2)
  | some (none, c2) =>
    let c3 := c2.flushSerial
    let c4 := c3.deadlineSocket
    match c4.Read 256 with
    | ((_, _, some err), c5) => some ((false, some (Err.responseFailed err)), c5)
    | ((n, _, none), c5) =>
      if n > 0 then some ((true, none), c5)
      else some ((false, some Err.noResponse), c5)

/-- Embeds `Controller.TestConnection` of `pkg/lock/lock.go`. The result is the pair
returned, the handles closed by the deferred `Disconnect` (none when `Connect` fails)
and the controller afterwards; `none` is a panic. -/
def Controller.TestConnection (dial : Except Nat Conn) (closeErr : Conn → Option Nat)
    (c : Controller) : Option (((Bool × Option Err) × List Conn) × Controller) :=
  match c.Connect dial with
  | (some err, c1) => some (((false, some err), []), c1)
  | (none, c1) =>
    match c1.probe with
    | none => none
    | some (res, c2) =>
      some ((res, (c2.Disconnect closeErr).1.2), (c2.Disconnect closeErr).2)

/-- The probe of a connection test is answered: the dial yields a handle on which the
next write succeeds and the next read succeeds and delivers at least one byte (into a
buffer of 256). -/
def probeAnswered (dial : Except Nat Conn) : Prop :=
  match dial with
  | Except.error _ => False
  | Except.ok h =>
    h.wr h.nWrites = none ∧ (h.rd h.nReads).2 = none ∧ 0 < ((h.rd h.nReads).1.take 256).length

/-- The probe of a connection test is sent: the dial yields a handle on which the next
write succeeds. -/
def probeSent (dial : Except Nat Conn) : Prop :=
  match dial with
  | Except.error _ => False
  | Except.ok h => h.wr h.nWrites = none

end lock

namespace rfid

/-- Embeds `Reader` of `pkg/rfid/rfid.go`; `conn` is `nil` or a handle. -/
structure Reader where
  host : String
  port : Int
  conn : Option lock.Conn
  antennas : List Int

/-- Embeds `NewReader` of `pkg/rfid/rfid.go`. -/
def NewReader (host : String) (port : Int) (antennas : List Int) : Reader :=
  { host := host, port := port, conn := none, antennas := antennas }

/-- Embeds `Reader.Connect` of `pkg/rfid/rfid.go`. -/
def Reader.Connect (r : Reader) (dial : Except Nat lock.Conn) : Option lock.Err × Reader :=
  match dial with
  | Except.error code => (some (lock.Err.socketConnectFailed (lock.Err.io code)), r)
  | Except.ok conn => (none, { r with conn := some conn })

/-- Embeds `Reader.Stop` of `pkg/rfid/rfid.go`; `none` is a panic. -/
def Reader.Stop (r : Reader) : Option (Option lock.Err × Reader) :=
  match r.conn with
  | none => some (some lock.Err.notConnected, r)
  | some h =>
    match generateStopCommand with
    | none => none
    | some cmd => some ((h.write cmd).1.2, { r with conn := some (h.write cmd).2 })

/-- Embeds `Reader.QueryPower` of `pkg/rfid/rfid.go`; `none` is a panic. -/
def Reader.QueryPower (r : Reader) : Option (Option lock.Err × Reader) :=
  match r.conn with
  | none => some (some lock.Err.notConnected, r)
  | some h =>
    match generateQueryPowerCommand with
    | none => none
    | some cmd => some ((h.write cmd).1.2, { r with conn := some (h.write cmd).2 })

/-- Embeds `Reader.Disconnect` of `pkg/rfid/rfid.go`: with a handle, send the stop command
(its error is dropped) and return what `Close` returns; the field `conn` keeps the
handle. `none` is a panic. -/
def Reader.Disconnect (closeErr : lock.Conn → Option Nat) (r : Reader) :
    Option (Option lock.Err × Reader) :=
  match r.conn with
  | some _ =>
    match r.Stop with
    | none => none
    | some (_, r1) =>
      match r1.conn with
      | some h1 => some ((h1.close closeErr).1, { r1 with conn := some (h1.close closeErr).2 })
      | none => none
  | none => some (none, r)

/-- The rest of `TestConnection` once `Connect` has succeeded, before the deferred
`Disconnect`: the pair to return and the reader at that point. -/
def Reader.probe (r : Reader) : Option ((Bool × Option lock.Err) × Reader) :=
  match r.QueryPower with
  | none => none
  | some (some err, r1) => some ((false, some err), r1)
  | some (none, r1) =>
    match r1.conn with
    | none => none
    | some h =>
      let h1 := h.note lock.Op.setReadDeadline
      let r2 : Reader := { r1 with conn := some (h1.read 256).2 }
      match (h1.read 256).1 with
      | (_, _, some err) => some ((false, some (lock.Err.responseFailed err)), r2)
      | (n, _, none) =>
        if n > 0 then some ((true, none), r2)
        else some ((false, some lock.Err.noResponse), r2)

/-- Embeds `Reader.TestConnection` of `pkg/rfid/rfid.go`: the pair returned and the
reader after the deferred `Disconnect`; `none` is a panic. -/
def Reader.TestConnection (dial : Except Nat lock.Conn) (closeErr : lock.Conn → Option Nat)
    (r : Reader) : Option ((Bool × Option lock.Err) × Reader) :=
  match r.Connect dial with
  | (some err, r1) => some ((false, some err), r1)
  | (none, r1) =>
    match r1.probe with
    | none => none
    | some (res, r2) =>
      match r2.Disconnect closeErr with
      | none => none
      | some (_, r3) => some (res, r3)

end rfid

namespace screen

/-- Embeds `ConnectionType` of `pkg/screen/screen.go`. -/
inductive ConnectionType where
  | TypeSerial
  | TypeSocket
  deriving DecidableEq, Repr

/-- Embeds `Controller` of `pkg/screen/screen.go`. -/
structure Controller where
  connType : ConnectionType
  path : String
  baudRate : Int
  port : Int
  socketConn : Option lock.Conn
  serialConn : Option lock.Conn
  isConnected : Bool

/-- Embeds `NewController` of `pkg/screen/screen.go`. -/
def NewController (connType : ConnectionType) (path : String) (baudRate port : Int) :
    Controller :=
  { connType := connType, path := path, baudRate := baudRate, port := port,
    socketConn := none, serialConn := none, isConnected := false }

/-- Embeds `Controller.connectSerial` of `pkg/screen/screen.go`. -/
def Controller.connectSerial (c : Controller) (dial : Except Nat lock.Conn) :
    Option lock.Err × Controller :=
  match dial with
  | Except.error code => (some (lock.Err.serialConnectFailed (lock.Err.io code)), c)
  | Except.ok conn => (none, { c with serialConn := some conn, isConnected := true })

/-- Embeds `Controller.connectSocket` of `pkg/screen/screen.go`. -/
def Controller.connectSocket (c : Controller) (dial : Except Nat lock.Conn) :
    Option lock.Err × Controller :=
  match dial with
  | Except.error code => (some (lock.Err.socketConnectFailed (lock.Err.io code)), c)
  | Except.ok conn => (none, { c with socketConn := some conn, isConnected := true })

/-- Embeds `Controller.Connect` of `pkg/screen/screen.go`. -/
def Controller.Connect (c : Controller) (dial : Except Nat lock.Conn) :
    Option lock.Err × Controller :=
  if c.connType = ConnectionType.TypeSerial then c.connectSerial dial
  else c.connectSocket dial

/-- Embeds `Controller.Disconnect` of `pkg/screen/screen.go`. The result is the error, the
handles the call closed (in their state after `Close`) and the controller afterwards. -/
def Controller.Disconnect (closeErr : lock.Conn → Option Nat) (c : Controller) :
    (Option lock.Err × List lock.Conn) × Controller :=
  if !c.isConnected then ((none, []), c)
  else
    let s1 : Option lock.Err × List lock.Conn × Controller :=
      match c.serialConn with
      | some h => ((h.close closeErr).1, [(h.close closeErr).2], { c with serialConn := none })
      | none => (none, [], c)
    let s2 : Option lock.Err × List lock.Conn × Controller :=
      match s1.2.2.socketConn with
      | some h =>
        ((match s1.1 with
          | none => (h.close closeErr).1
          | some err => some err),
         s1.2.1 ++ [(h.close closeErr).2], { s1.2.2 with socketConn := none })
      | none => s1
    ((s2.1, s2.2.1), { s2.2.2 with isConnected := false })

/-- Embeds `Controller.Write` of `pkg/screen/screen.go`. -/
def Controller.Write (c : Controller) (data : List Nat) :
    (Nat × Option lock.Err) × Controller :=
  if !c.isConnected then ((0, some lock.Err.notConnected), c)
  else
    match c.serialConn with
    | some h => ((h.write data).1, { c with serialConn := some (h.write data).2 })
    | none =>
      match c.socketConn with
      | some h => ((h.write data).1, { c with socketConn := some (h.write data).2 })
      | none => ((0, some lock.Err.notConnected), c)

/-- Embeds `Controller.SendCommand` of `pkg/screen/screen.go`; `none` is a panic of
`generateCommand`. -/
def Controller.SendCommand (c : Controller) (cmdID command : List Nat) :
    Option (Option lock.Err × Controller) :=
  if !c.isConnected then some (some lock.Err.notConnected, c)
  else
    match generateCommand cmdID command with
    | none => none
    | some cmd => some ((c.Write cmd).1.2, (c.Write cmd).2)

/-- Embeds `Controller.TestConnection` of `pkg/screen/screen.go`. The result is the pair
returned, the handles closed by the deferred `Disconnect` (none when `Connect` fails)
and the controller afterwards; `none` is a panic. -/
def Controller.TestConnection (dial : Except Nat lock.Conn)
    (closeErr : lock.Conn → Option Nat) (c : Controller) :
    Option (((Bool × Option lock.Err) × List lock.Conn) × Controller) :=
  match c.Connect dial with
  | (some err, c1) => some (((false, some err), []), c1)
  | (none, c1) =>
    match c1.SendCommand (lit "00") (lit "t0.txt=\"\"") with
    | none => none
    | some (some err, c2) =>
      some (((false, some err), (c2.Disconnect closeErr).1.2), (c2.Disconnect closeErr).2)
    | some (none, c2) =>
      some (((true, none), (c2.Disconnect closeErr).1.2), (c2.Disconnect closeErr).2)

end screen

/-- A handle on which every write succeeds and no read ever delivers a byte: each read
fails with error code 7. -/
def silentHandle : lock.Conn :=
  { wr := fun _ => none, rd := fun _ => ([], some 7), nWrites := 0, nReads := 0, log := [] }

/-- A handle on which every write succeeds and every read delivers the byte `01`. -/
def answeringHandle : lock.Conn :=
  { wr := fun _ => none, rd := fun _ => ([1], none), nWrites := 0, nReads := 0, log := [] }

/-- A transport on which `Close` fails with error code 5 on a handle closed before. -/
def closeOnce (h : lock.Conn) : Option Nat :=
  if lock.Op.close ∈ h.log then some 5 else none

/-- A reader after a successful `Connect` to a handle that answers every read. -/
def connectedReader : rfid.Reader :=
  ((rfid.NewReader "192.168.1.100" 8086 [1, 2, 3, 4]).Connect (Except.ok answeringHandle)).2

/-- The pair that a connection test with a response check returns, read off the
transport: the outcome of the dial, of the next write on the handle and of the next read.
For the lock controller the dial error is wrapped according to the connection type. -/
def probeOutcome (wrapDial : lock.Err → lock.Err) (dial : Except Nat lock.Conn) :
    Bool × Option lock.Err :=
  match dial with
  | Except.error code => (false, some (wrapDial (lock.Err.io code)))
  | Except.ok h =>
    match h.wr h.nWrites with
    | some code => (false, some (lock.Err.io code))
    | none =>
      match (h.rd h.nReads).2 with
      | some code => (false, some (lock.Err.responseFailed (lock.Err.io code)))
      | none =>
        if 0 < ((h.rd h.nReads).1.take 256).length then (true, none)
        else (false, some lock.Err.noResponse)

/-- The pair that the connection test of the screen returns, read off the transport: the
outcome of the dial and of the next write on the handle. -/
def sendOutcome (wrapDial : lock.Err → lock.Err) (dial : Except Nat lock.Conn) :
    Bool × Option lock.Err :=
  match dial with
  | Except.error code => (false, some (wrapDial (lock.Err.io code)))
  | Except.ok h =>
    match h.wr h.nWrites with
    | some code => (false, some (lock.Err.io code))
    | none => (true, none)

/-- The wrapper of a dial error for a connection type of the lock controller. -/
def lockWrap (connType : lock.ConnectionType) : lock.Err → lock.Err :=
  match connType with
  | lock.ConnectionType.TypeSerial => lock.Err.serialConnectFailed
  | lock.ConnectionType.TypeSocket => lock.Err.socketConnectFailed

/-- The wrapper of a dial error for a connection type of the screen controller. -/
def screenWrap (connType : screen.ConnectionType) : lock.Err → lock.Err :=
  match connType with
  | screen.ConnectionType.TypeSerial => lock.Err.serialConnectFailed
  | screen.ConnectionType.TypeSocket => lock.Err.socketConnectFailed

/-! ## Hex strings -/

/-- The pair of characters at an index of a string of character pairs. -/
theorem pairs_getElem (pre : List Nat) (a b : Nat) (post : List Nat) :
    (pre ++ a :: b :: post)[pre.length]? = some a ∧
    (pre ++ a :: b :: post)[pre.length + 1]? = some b := by
  constructor
  · rw [List.getElem?_append_right (by omega)]
    simp
  · rw [List.getElem?_append_right (by omega)]
    simp

/-- The byte loop on a string of character pairs yields one byte per pair. -/
theorem bytesLoop_pairs (parse : List Nat → Nat → Option Nat) (F : Nat → Nat → Nat)
    (hp : ∀ pre a b post, parse (pre ++ a :: b :: post) pre.length = some (F a b))
    (ps : List (Nat × Nat)) :
    ∀ (pre : List Nat) (fuel : Nat), ps.length < fuel →
      bytesLoop parse (pre ++ ps.flatMap fun p => [p.1, p.2]) fuel pre.length
        = some (ps.map fun p => F p.1 p.2) := by
  induction ps with
  | nil =>
    intro pre fuel hf
    cases fuel with
    | zero => omega
    | succ n => simp [bytesLoop]
  | cons p ps ih =>
    intro pre fuel hf
    cases fuel with
    | zero => omega
    | succ n =>
      have hlen : pre.length < (pre ++ (p :: ps).flatMap fun p => [p.1, p.2]).length := by
        simp
      have h1 : (pre ++ (p :: ps).flatMap fun p => [p.1, p.2])
          = pre ++ p.1 :: p.2 :: (ps.flatMap fun p => [p.1, p.2]) := by simp
      have h2 : (pre ++ (p :: ps).flatMap fun p => [p.1, p.2])
          = (pre ++ [p.1, p.2]) ++ (ps.flatMap fun p => [p.1, p.2]) := by simp
      have ih1 := ih (pre ++ [p.1, p.2]) n (by simp at hf; omega)
      have hl2 : (pre ++ [p.1, p.2]).length = pre.length + 2 := by simp
      rw [hl2, ← h2] at ih1
      rw [bytesLoop, if_pos hlen, ih1]
      rw [h1, hp]
      simp

/-- The hex encoding as a string of character pairs. -/
theorem hexEncode_pairs (bs : List Nat) :
    hexEncode bs
      = (bs.map fun b => (hexDigit (b / 16), hexDigit (b % 16))).flatMap fun p => [p.1, p.2] := by
  induction bs with
  | nil => rfl
  | cons b bs ih => simp [hexEncode, List.flatMap_cons] at ih ⊢; exact ih

/-- The lower-case hex encoding as a string of character pairs. -/
theorem hexEncodeLower_pairs (bs : List Nat) :
    hexEncodeLower bs
      = (bs.map fun b => (hexDigitLower (b / 16), hexDigitLower (b % 16))).flatMap
          fun p => [p.1, p.2] := by
  induction bs with
  | nil => rfl
  | cons b bs ih => simp [hexEncodeLower, List.flatMap_cons] at ih ⊢; exact ih

theorem lock_parseHexByte_pair (pre : List Nat) (a b : Nat) (post : List Nat) :
    lock.parseHexByte (pre ++ a :: b :: post) pre.length = some (switchPair a b) := by
  obtain ⟨h1, h2⟩ := pairs_getElem pre a b post
  simp only [lock.parseHexByte, h1, h2, switchPair]

theorem switchPair_upper : ∀ hi, hi < 16 → ∀ lo, lo < 16 →
    switchPair (hexDigit hi) (hexDigit lo) = hi * 16 + lo := by decide

theorem switchPair_lower : ∀ hi, hi < 16 → ∀ lo, lo < 16 →
    switchPair (hexDigitLower hi) (hexDigitLower lo) = hi * 16 + lo := by decide

theorem map_byte_id (F : Nat → Nat → Nat) (d : Nat → Nat)
    (hF : ∀ hi, hi < 16 → ∀ lo, lo < 16 → F (d hi) (d lo) = hi * 16 + lo)
    (bs : List Nat) (hbs : ∀ b ∈ bs, b < 256) :
    ((bs.map fun b => (d (b / 16), d (b % 16))).map fun p => F p.1 p.2) = bs := by
  induction bs with
  | nil => rfl
  | cons b bs ih =>
    have hb : b < 256 := hbs b (by simp)
    have := hF (b / 16) (by omega) (b % 16) (by omega)
    simp only [List.map_cons, this]
    rw [ih (fun x hx => hbs x (by simp [hx]))]
    congr 1
    omega

theorem pairs_length (ps : List (Nat × Nat)) :
    (ps.flatMap fun p => [p.1, p.2]).length = 2 * ps.length := by
  induction ps with
  | nil => rfl
  | cons p ps ih => simp [List.flatMap_cons] at ih ⊢; omega

/-- The byte loop as the three packages start it: from index 0 with fuel `len + 1`. -/
theorem bytesLoop_pairs_start (parse : List Nat → Nat → Option Nat) (F : Nat → Nat → Nat)
    (hp : ∀ pre a b post, parse (pre ++ a :: b :: post) pre.length = some (F a b))
    (ps : List (Nat × Nat)) :
    bytesLoop parse (ps.flatMap fun p => [p.1, p.2])
        ((ps.flatMap fun p => [p.1, p.2]).length + 1) 0
      = some (ps.map fun p => F p.1 p.2) := by
  have h := bytesLoop_pairs parse F hp ps [] ((ps.flatMap fun p => [p.1, p.2]).length + 1)
    (by rw [pairs_length]; omega)
  simpa using h

/-! ## Package `lock`: frames -/

theorem xorAll_foldl_head (b0 : Nat) (rest : List Nat) :
    rest.foldl (· ^^^ ·) b0 = xorAll (b0 :: rest) := by
  simp [xorAll]

theorem xorAll_append_self (B : List Nat) : xorAll (B ++ [xorAll B]) = 0 := by
  simp [xorAll, List.foldl_append]

theorem lock_generateCommand_of_bytes (hexCmd B : List Nat) (hne : B ≠ [])
    (h : bytesLoop lock.parseHexByte hexCmd (hexCmd.length + 1) 0 = some B) :
    lock.generateCommand hexCmd = some (B ++ [xorAll B]) := by
  unfold lock.generateCommand
  rw [h]
  cases B with
  | nil => exact absurd rfl hne
  | cons b0 rest => simp only [xorAll_foldl_head]

/-- C1 (amended): for every non-empty byte sequence `B`, `lock.generateCommand` applied to
the hex encoding of `B` (upper or lower case) returns `B` followed by exactly one checksum
byte, the XOR of all bytes of `B`, and the XOR of all bytes of that frame is 0. -/
theorem lock_generateCommand_checksum (B : List Nat) (hB : ∀ b ∈ B, b < 256) (hne : B ≠ []) :
    lock.generateCommand (hexEncode B) = some (B ++ [xorAll B]) ∧
    lock.generateCommand (hexEncodeLower B) = some (B ++ [xorAll B]) ∧
    xorAll (B ++ [xorAll B]) = 0 := by
  refine ⟨?_, ?_, xorAll_append_self B⟩
  · apply lock_generateCommand_of_bytes _ _ hne
    rw [hexEncode_pairs, bytesLoop_pairs_start _ switchPair lock_parseHexByte_pair,
      map_byte_id switchPair hexDigit switchPair_upper B hB]
  · apply lock_generateCommand_of_bytes _ _ hne
    rw [hexEncodeLower_pairs, bytesLoop_pairs_start _ switchPair lock_parseHexByte_pair,
      map_byte_id switchPair hexDigitLower switchPair_lower B hB]

/-- Witness of C1 at the body `8A 05 02 11`. -/
theorem lock_generateCommand_checksum_witness :
    lock.generateCommand (hexEncode [0x8A, 5, 2, 0x11])
        = some ([0x8A, 5, 2, 0x11] ++ [xorAll [0x8A, 5, 2, 0x11]]) ∧
    lock.generateCommand (hexEncodeLower [0x8A, 5, 2, 0x11])
        = some ([0x8A, 5, 2, 0x11] ++ [xorAll [0x8A, 5, 2, 0x11]]) ∧
    xorAll ([0x8A, 5, 2, 0x11] ++ [xorAll [0x8A, 5, 2, 0x11]]) = 0 :=
  lock_generateCommand_checksum [0x8A, 5, 2, 0x11] (by decide) (by decide)

/-- C1 as stated fails at the empty byte sequence: `generateCommand` reads `bytes[0]` of an
empty slice and panics instead of returning the one-byte frame `00`. -/
theorem lock_generateCommand_empty_panics :
    lock.generateCommand (hexEncode []) = none ∧
    ¬ (∀ B : List Nat, (∀ b ∈ B, b < 256) →
        lock.generateCommand (hexEncode B) = some (B ++ [xorAll B])) := by
  refine ⟨by decide, fun h => ?_⟩
  have h0 := h [] (by simp)
  revert h0
  decide

/-- C2 (amended): `generateOpenCommand(5, 2)` returns the five bytes `8A 05 02 11 9C`: the
body `8A ++ boardAddress ++ lockAddress ++ 11` followed by the XOR of those four bytes. -/
theorem lock_generateOpenCommand_5_2 :
    lock.generateOpenCommand 5 2 = some [0x8A, 0x05, 0x02, 0x11, 0x9C] ∧
    lock.generateOpenCommand 5 2 = some ([0x8A, 5, 2, 0x11] ++ [xorAll [0x8A, 5, 2, 0x11]]) := by
  decide

/-- C2 as stated fails: the frame of `generateOpenCommand(5, 2)` is not `8A 05 02 11 9E`,
and `9E` is not the XOR of the four body bytes. -/
theorem lock_generateOpenCommand_5_2_not_9E :
    lock.generateOpenCommand 5 2 ≠ some [0x8A, 0x05, 0x02, 0x11, 0x9E] ∧
    xorAll [0x8A, 0x05, 0x02, 0x11] ≠ 0x9E := by
  decide

/-- C3 (amended): `generateQueryCommand()` returns the fixed body `80 01 00 33` followed by
a single checksum byte, the XOR of those four body bytes: the frame `80 01 00 33 B2`. -/
theorem lock_generateQueryCommand_frame :
    lock.generateQueryCommand = some [0x80, 0x01, 0x00, 0x33, 0xB2] ∧
    lock.generateQueryCommand
      = some ([0x80, 0x01, 0x00, 0x33] ++ [xorAll [0x80, 0x01, 0x00, 0x33]]) := by
  decide

/-- C3 as stated fails: the frame of `generateQueryCommand()` is not `80 01 00 81`; its
body has a fourth byte `33`. -/
theorem lock_generateQueryCommand_not_80010081 :
    lock.generateQueryCommand ≠ some [0x80, 0x01, 0x00, 0x81] ∧
    lock.generateQueryCommand
      ≠ some ([0x80, 0x01, 0x00] ++ [xorAll [0x80, 0x01, 0x00]]) := by
  decide

/-- C4: for every board address `b` with `1 ≤ b ≤ 8`, `generateQueryAllCommand(b)` returns
exactly the four bytes `80, b, 01, 0x80 xor b xor 0x01`; for `b = 3` that is `80 03 01 82`. -/
theorem lock_generateQueryAllCommand_frame (b : Int) (h1 : 1 ≤ b) (h8 : b ≤ 8) :
    lock.generateQueryAllCommand b
        = some [0x80, b.toNat, 0x01, 0x80 ^^^ b.toNat ^^^ 0x01] ∧
    lock.generateQueryAllCommand 3 = some [0x80, 0x03, 0x01, 0x82] := by
  refine ⟨?_, by decide⟩
  have hb : b = 1 ∨ b = 2 ∨ b = 3 ∨ b = 4 ∨ b = 5 ∨ b = 6 ∨ b = 7 ∨ b = 8 := by omega
  rcases hb with h | h | h | h | h | h | h | h <;> subst h <;> decide

/-- Witness of C4 at board address 3. -/
theorem lock_generateQueryAllCommand_frame_witness :
    lock.generateQueryAllCommand 3 = some [0x80, (3 : Int).toNat, 0x01, 0x80 ^^^ (3 : Int).toNat ^^^ 0x01] ∧
    lock.generateQueryAllCommand 3 = some [0x80, 0x03, 0x01, 0x82] :=
  lock_generateQueryAllCommand_frame 3 (by decide) (by decide)

/-! ## `%0wX` formatting -/

theorem fixedDigits_length (w : Nat) : ∀ n, (fixedDigits w n).length = w := by
  induction w with
  | zero => intro n; rfl
  | succ w ih => intro n; simp [fixedDigits, ih]

theorem fixedDigits_zero (w : Nat) : fixedDigits w 0 = List.replicate w 48 := by
  induction w with
  | zero => rfl
  | succ w ih =>
    simp only [fixedDigits, Nat.zero_div, Nat.zero_mod, ih]
    rw [List.replicate_succ']
    rfl

/-- Digits without padding, padded to width `w + 1`, are the `w + 1` fixed digits. -/
theorem hexDigits_pad (w : Nat) : ∀ fuel n, w + 1 ≤ fuel → n < 16 ^ (w + 1) →
    (hexDigits fuel n).length ≤ w + 1 ∧
    List.replicate (w + 1 - (hexDigits fuel n).length) 48 ++ hexDigits fuel n
      = fixedDigits (w + 1) n := by
  induction w with
  | zero =>
    intro fuel n hf hn
    cases fuel with
    | zero => omega
    | succ f =>
      have hn16 : n < 16 := by simpa using hn
      have hmod : n % 16 = n := Nat.mod_eq_of_lt hn16
      simp [hexDigits, hn16, fixedDigits, hmod]
  | succ w ih =>
    intro fuel n hf hn
    cases fuel with
    | zero => omega
    | succ f =>
      by_cases hn16 : n < 16
      · have hmod : n % 16 = n := Nat.mod_eq_of_lt hn16
        have hdiv : n / 16 = 0 := Nat.div_eq_of_lt hn16
        have hfd : fixedDigits (w + 1 + 1) n = List.replicate (w + 1) 48 ++ [hexDigit n] := by
          rw [fixedDigits, hdiv, hmod, fixedDigits_zero]
        simp only [hexDigits, hn16, if_true, List.length_singleton, hfd]
        constructor
        · omega
        · have : w + 1 + 1 - 1 = w + 1 := by omega
          rw [this]
      · have hdiv : n / 16 < 16 ^ (w + 1) := by
          rw [Nat.div_lt_iff_lt_mul (by decide)]
          rw [pow_succ] at hn
          exact hn
        obtain ⟨hl, he⟩ := ih f (n / 16) (by omega) hdiv
        simp only [hexDigits, hn16, if_false, List.length_append, List.length_singleton]
        constructor
        · omega
        · have : w + 1 + 1 - ((hexDigits f (n / 16)).length + 1)
              = w + 1 - (hexDigits f (n / 16)).length := by omega
          rw [this, ← List.append_assoc, he]
          rfl

/-- The result of `%0wX` for `1 ≤ w ≤ 16` on a value of at most `w` digits. -/
theorem fmtX_fixed (w n : Nat) (hw : w + 1 ≤ 16) (hn : n < 16 ^ (w + 1)) :
    fmtX (w + 1) n = fixedDigits (w + 1) n := by
  unfold fmtX
  exact (hexDigits_pad w 16 n hw hn).2

theorem fmtX_two (b : Nat) (hb : b < 256) : fmtX 2 b = [hexDigit (b / 16), hexDigit (b % 16)] := by
  rw [fmtX_fixed 1 b (by decide) (by simpa using hb)]
  simp only [fixedDigits, List.nil_append, List.singleton_append]
  have : b / 16 % 16 = b / 16 := by omega
  rw [this]

theorem fmtX_four (n : Nat) (hn : n < 65536) : fmtX 4 n = hexEncode (be16 n) := by
  rw [fmtX_fixed 3 n (by decide) (by simpa using hn)]
  simp only [fixedDigits, List.nil_append, List.singleton_append, hexEncode, be16,
    List.flatMap_cons, List.flatMap_nil, List.append_nil, List.cons_append]
  have h1 : n / 16 / 16 / 16 % 16 = n / 256 % 256 / 16 := by omega
  have h2 : n / 16 / 16 % 16 = n / 256 % 256 % 16 := by omega
  have h3 : n / 16 % 16 = n % 256 / 16 := by omega
  have h4 : n % 16 = n % 256 % 16 := by omega
  rw [h1, h2, h3, h4]

theorem fmtX_eight (n : Nat) (hn : n < 4294967296) : fmtX 8 n = hexEncode (be32 n) := by
  rw [fmtX_fixed 7 n (by decide) (by simpa using hn)]
  simp only [fixedDigits, List.nil_append, List.singleton_append, hexEncode, be32,
    List.flatMap_cons, List.flatMap_nil, List.append_nil, List.cons_append]
  have h1 : n / 16 / 16 / 16 / 16 / 16 / 16 / 16 % 16 = n / 16777216 % 256 / 16 := by omega
  have h2 : n / 16 / 16 / 16 / 16 / 16 / 16 % 16 = n / 16777216 % 256 % 16 := by omega
  have h3 : n / 16 / 16 / 16 / 16 / 16 % 16 = n / 65536 % 256 / 16 := by omega
  have h4 : n / 16 / 16 / 16 / 16 % 16 = n / 65536 % 256 % 16 := by omega
  have h5 : n / 16 / 16 / 16 % 16 = n / 256 % 256 / 16 := by omega
  have h6 : n / 16 / 16 % 16 = n / 256 % 256 % 16 := by omega
  have h7 : n / 16 % 16 = n % 256 / 16 := by omega
  have h8 : n % 16 = n % 256 % 16 := by omega
  rw [h1, h2, h3, h4, h5, h6, h7, h8]

/-! ## Package `rfid`: the CRC -/

theorem rfid_parseHexByte_pair (pre : List Nat) (a b : Nat) (post : List Nat) :
    rfid.parseHexByte (pre ++ a :: b :: post) pre.length = some (rfidPair a b) := by
  obtain ⟨h1, h2⟩ := pairs_getElem pre a b post
  simp only [rfid.parseHexByte, h1, h2, rfidPair]

theorem rfidPair_upper : ∀ hi, hi < 16 → ∀ lo, lo < 16 →
    rfidPair (hexDigit hi) (hexDigit lo) = hi * 16 + lo := by decide

/-- The CRC loop on a string of character pairs folds over the pairs. -/
theorem crcLoop_pairs (ps : List (Nat × Nat)) :
    ∀ (pre : List Nat) (fuel crc : Nat), ps.length < fuel →
      rfid.crcLoop (pre ++ ps.flatMap fun p => [p.1, p.2]) fuel pre.length crc
        = some (ps.foldl
            (fun c p => rfid.crcShift 8 (c ^^^ ((rfidPair p.1 p.2 <<< 8) % 65536))) crc) := by
  induction ps with
  | nil =>
    intro pre fuel crc hf
    cases fuel with
    | zero => omega
    | succ n => simp [rfid.crcLoop]
  | cons p ps ih =>
    intro pre fuel crc hf
    cases fuel with
    | zero => omega
    | succ n =>
      have hlen : pre.length < (pre ++ (p :: ps).flatMap fun p => [p.1, p.2]).length := by
        simp
      have h1 : (pre ++ (p :: ps).flatMap fun p => [p.1, p.2])
          = pre ++ p.1 :: p.2 :: (ps.flatMap fun p => [p.1, p.2]) := by simp
      have h2 : (pre ++ (p :: ps).flatMap fun p => [p.1, p.2])
          = (pre ++ [p.1, p.2]) ++ (ps.flatMap fun p => [p.1, p.2]) := by simp
      have hl2 : (pre ++ [p.1, p.2]).length = pre.length + 2 := by simp
      have ih1 := fun c => ih (pre ++ [p.1, p.2]) n c (by simp at hf; omega)
      simp only [hl2, ← h2] at ih1
      rw [rfid.crcLoop, if_pos hlen]
      have hp : rfid.parseHexByte (pre ++ (p :: ps).flatMap fun p => [p.1, p.2]) pre.length
          = some (rfidPair p.1 p.2) := by rw [h1, rfid_parseHexByte_pair]
      rw [hp]
      simp only [ih1, List.foldl_cons]

/-- One round of the inner loop of `calculateCRC` is one bit of the division. -/
theorem crc_round (x : Nat) (hx : x < 65536) :
    (if x &&& 0x8000 ≠ 0 then ((x <<< 1) % 65536) ^^^ 0x1021 else (x <<< 1) % 65536)
      = crc16Bit x ∧ crc16Bit x < 65536 := by
  have hand : x &&& 0x8000 = (x.testBit 15).toNat * 2 ^ 15 := Nat.and_two_pow x 15
  have htb : x.testBit 15 = decide (x / 2 ^ 15 % 2 = 1) := Nat.testBit_to_div_mod
  have hsh : x <<< 1 = 2 * x := by rw [Nat.shiftLeft_eq]; omega
  have hxor : ∀ y, y < 65536 → y ^^^ 0x1021 < 65536 := fun y hy =>
    Nat.xor_lt_two_pow (n := 16) hy (by decide)
  by_cases h : 32768 ≤ x
  · have ht : x.testBit 15 = true := by
      rw [htb]; simp only [decide_eq_true_eq]; omega
    have hne : x &&& 0x8000 ≠ 0 := by rw [hand, ht]; decide
    have hmod : (2 * x) % 65536 = 2 * x - 65536 := by omega
    have hge : 65536 ≤ 2 * x := by omega
    rw [if_pos hne, hsh, hmod]
    unfold crc16Bit
    rw [if_pos hge]
    exact ⟨rfl, hxor _ (by omega)⟩
  · have ht : x.testBit 15 = false := by
      rw [htb]; simp only [decide_eq_false_iff_not]; omega
    have hz : ¬ (x &&& 0x8000 ≠ 0) := by rw [hand, ht]; decide
    have hmod : (2 * x) % 65536 = 2 * x := by omega
    have hlt : ¬ (65536 ≤ 2 * x) := by omega
    rw [if_neg hz, hsh, hmod]
    unfold crc16Bit
    rw [if_neg hlt]
    exact ⟨rfl, by omega⟩

theorem crcShift_succ (n x : Nat) (hx : x < 65536) :
    rfid.crcShift (n + 1) x = rfid.crcShift n (crc16Bit x) ∧ crc16Bit x < 65536 := by
  obtain ⟨hr, hb⟩ := crc_round x hx
  refine ⟨?_, hb⟩
  rw [← hr]
  simp only [rfid.crcShift]
  split <;> rfl

/-- One byte of `calculateCRC` is one byte of the CRC-16/CCITT-FALSE division. -/
theorem crc_byte (c b : Nat) (hc : c < 65536) (hb : b < 256) :
    rfid.crcShift 8 (c ^^^ ((b <<< 8) % 65536)) = crc16Byte c b ∧ crc16Byte c b < 65536 := by
  have hsh : (b <<< 8) % 65536 = b * 256 := by rw [Nat.shiftLeft_eq]; omega
  have hx : c ^^^ (b * 256) < 65536 :=
    Nat.xor_lt_two_pow (n := 16) hc (by omega)
  rw [hsh]
  obtain ⟨e1, b1⟩ := crcShift_succ 7 _ hx
  obtain ⟨e2, b2⟩ := crcShift_succ 6 _ b1
  obtain ⟨e3, b3⟩ := crcShift_succ 5 _ b2
  obtain ⟨e4, b4⟩ := crcShift_succ 4 _ b3
  obtain ⟨e5, b5⟩ := crcShift_succ 3 _ b4
  obtain ⟨e6, b6⟩ := crcShift_succ 2 _ b5
  obtain ⟨e7, b7⟩ := crcShift_succ 1 _ b6
  obtain ⟨e8, b8⟩ := crcShift_succ 0 _ b7
  have h0 : ∀ y, rfid.crcShift 0 y = y := fun _ => rfl
  refine ⟨?_, b8⟩
  calc rfid.crcShift 8 (c ^^^ b * 256)
      = rfid.crcShift 7 _ := e1
    _ = rfid.crcShift 6 _ := e2
    _ = rfid.crcShift 5 _ := e3
    _ = rfid.crcShift 4 _ := e4
    _ = rfid.crcShift 3 _ := e5
    _ = rfid.crcShift 2 _ := e6
    _ = rfid.crcShift 1 _ := e7
    _ = rfid.crcShift 0 _ := e8
    _ = crc16Byte c b := h0 _

theorem crc_fold (bs : List Nat) (hbs : ∀ b ∈ bs, b < 256) : ∀ c, c < 65536 →
    (bs.map fun b => (hexDigit (b / 16), hexDigit (b % 16))).foldl
        (fun c p => rfid.crcShift 8 (c ^^^ ((rfidPair p.1 p.2 <<< 8) % 65536))) c
      = bs.foldl crc16Byte c ∧ bs.foldl crc16Byte c < 65536 := by
  induction bs with
  | nil => intro c hc; exact ⟨rfl, hc⟩
  | cons b bs ih =>
    intro c hc
    have hb : b < 256 := hbs b (by simp)
    have hp : rfidPair (hexDigit (b / 16)) (hexDigit (b % 16)) = b := by
      rw [rfidPair_upper (b / 16) (by omega) (b % 16) (by omega)]; omega
    obtain ⟨h1, h2⟩ := crc_byte c b hc hb
    simp only [List.map_cons, List.foldl_cons, hp, h1]
    exact ih (fun x hx => hbs x (by simp [hx])) _ h2

theorem crc16CcittFalse_lt (bs : List Nat) (hbs : ∀ b ∈ bs, b < 256) :
    crc16CcittFalse bs < 65536 :=
  (crc_fold bs hbs 0xFFFF (by decide)).2

/-- The routine `calculateCRC` on a hex-encoded byte sequence prints the CRC of the bytes. -/
theorem rfid_calculateCRC_hexEncode (bs : List Nat) (hbs : ∀ b ∈ bs, b < 256) :
    rfid.calculateCRC (hexEncode bs) = some (hexEncode (be16 (crc16CcittFalse bs))) := by
  unfold rfid.calculateCRC
  have h := crcLoop_pairs (bs.map fun b => (hexDigit (b / 16), hexDigit (b % 16))) []
    ((hexEncode bs).length + 1) 0xFFFF (by rw [hexEncode_pairs, pairs_length]; omega)
  simp only [List.nil_append, List.length_nil, ← hexEncode_pairs] at h
  rw [h, (crc_fold bs hbs 0xFFFF (by decide)).1]
  show some (fmtX 4 (crc16CcittFalse bs)) = _
  rw [fmtX_four _ (crc16CcittFalse_lt bs hbs)]

theorem rfid_hexToBytes_hexEncode (bs : List Nat) (hbs : ∀ b ∈ bs, b < 256) :
    rfid.hexToBytes (hexEncode bs) = some bs := by
  unfold rfid.hexToBytes
  rw [hexEncode_pairs, bytesLoop_pairs_start _ rfidPair rfid_parseHexByte_pair,
    map_byte_id rfidPair hexDigit rfidPair_upper bs hbs]

/-- The four upper-case hexadecimal digits of a 16-bit value. -/
theorem hexEncode_be16 (n : Nat) :
    hexEncode (be16 n)
      = [hexDigit (n / 256 % 256 / 16), hexDigit (n / 256 % 256 % 16),
         hexDigit (n % 256 / 16), hexDigit (n % 256 % 16)] := rfl

set_option maxRecDepth 100000 in
/-- The reference vector of CRC-16/CCITT-FALSE, on the specification and on the code. -/
theorem crc_check_vector :
    rfid.calculateCRC (hexEncode (lit "123456789")) = some (lit "29B1") ∧
    crc16CcittFalse (lit "123456789") = 0x29B1 := by
  decide

/-- C5: for every byte sequence `B`, `rfid.calculateCRC` applied to the upper-case hex
encoding of `B` returns the four upper-case hex digits of the CRC-16/CCITT-FALSE of `B`
(polynomial 0x1021, initial value 0xFFFF, MSB-first, no final XOR) computed over the raw
bytes, a 16-bit value; for the ASCII bytes of "123456789" the result is 29B1. -/
theorem rfid_calculateCRC_refines (B : List Nat) (hB : ∀ b ∈ B, b < 256) :
    rfid.calculateCRC (hexEncode B) = some (fixedDigits 4 (crc16CcittFalse B)) ∧
    crc16CcittFalse B < 65536 ∧
    rfid.calculateCRC (hexEncode (lit "123456789")) = some (lit "29B1") ∧
    crc16CcittFalse (lit "123456789") = 0x29B1 := by
  refine ⟨?_, crc16CcittFalse_lt B hB, crc_check_vector.1, crc_check_vector.2⟩
  rw [rfid_calculateCRC_hexEncode B hB, ← fmtX_four _ (crc16CcittFalse_lt B hB),
    fmtX_fixed 3 _ (by decide) (by simpa using crc16CcittFalse_lt B hB)]

/-- Witness of C5 at the ASCII bytes of "123456789". -/
theorem rfid_calculateCRC_refines_witness :
    rfid.calculateCRC (hexEncode (lit "123456789"))
        = some (fixedDigits 4 (crc16CcittFalse (lit "123456789"))) ∧
    crc16CcittFalse (lit "123456789") < 65536 ∧
    rfid.calculateCRC (hexEncode (lit "123456789")) = some (lit "29B1") ∧
    crc16CcittFalse (lit "123456789") = 0x29B1 :=
  rfid_calculateCRC_refines (lit "123456789") (by decide)

/-! ## Package `rfid`: frames -/

theorem hexEncode_append (xs ys : List Nat) :
    hexEncode (xs ++ ys) = hexEncode xs ++ hexEncode ys := by
  simp [hexEncode, List.flatMap_append]

theorem hexEncode_length (xs : List Nat) : (hexEncode xs).length = 2 * xs.length := by
  rw [hexEncode_pairs, pairs_length, List.length_map]

theorem be16_lt (n : Nat) : ∀ b ∈ be16 n, b < 256 := by
  intro b hb
  simp only [be16, List.mem_cons, List.mem_singleton, List.mem_nil_iff, or_false] at hb
  rcases hb with h | h <;> subst h <;> omega

theorem be32_lt (n : Nat) : ∀ b ∈ be32 n, b < 256 := by
  intro b hb
  simp only [be32, List.mem_cons, List.mem_singleton, List.mem_nil_iff, or_false] at hb
  rcases hb with h | h | h | h <;> subst h <;> omega

/-- The frame that `buildRFIDCommand` builds from a hex-encoded payload. -/
theorem rfid_build_frame (cmdType : Nat) (payload : List Nat)
    (hp : ∀ b ∈ payload, b < 256) (hl : payload.length ≤ 65535) :
    rfid.buildRFIDCommand cmdType (hexEncode payload)
      = some (([0x5A, 0x00, 0x00, 0x01, 0x00] ++ be16 payload.length ++ payload)
          ++ be16 (crc16CcittFalse
              ([0x5A, 0x00, 0x00, 0x01, 0x00] ++ be16 payload.length ++ payload))) := by
  have hhdr : lit "5A00000100" = hexEncode [0x5A, 0x00, 0x00, 0x01, 0x00] := by decide
  have hlen : (hexEncode payload).length / 2 = payload.length := by
    rw [hexEncode_length]; omega
  have hX : ∀ b ∈ [0x5A, 0x00, 0x00, 0x01, 0x00] ++ be16 payload.length ++ payload, b < 256 := by
    intro b hb
    rw [List.mem_append, List.mem_append] at hb
    rcases hb with (h | h) | h
    · revert b; decide
    · exact be16_lt _ b h
    · exact hp b h
  have hcmd : lit "5A00000100" ++ fmtX 4 ((hexEncode payload).length / 2) ++ hexEncode payload
      = hexEncode ([0x5A, 0x00, 0x00, 0x01, 0x00] ++ be16 payload.length ++ payload) := by
    rw [hlen, fmtX_four _ (by omega), hhdr, hexEncode_append, hexEncode_append]
  unfold rfid.buildRFIDCommand
  simp only [hcmd]
  rw [rfid_calculateCRC_hexEncode _ hX]
  simp only
  rw [← hexEncode_append]
  apply rfid_hexToBytes_hexEncode
  intro b hb
  rw [List.mem_append] at hb
  rcases hb with h | h
  · exact hX b h
  · exact be16_lt _ b h

/-- C6: for every payload of at most 65535 bytes, passed as its upper-case hex encoding,
and every command type, `buildRFIDCommand` returns `5A 00 00 01 00`, the 2-byte big-endian
payload length, the payload and the 2-byte big-endian CRC-16/CCITT-FALSE of every
preceding byte of the frame. -/
theorem rfid_buildRFIDCommand_frame (cmdType : Nat) (payload : List Nat)
    (hp : ∀ b ∈ payload, b < 256) (hl : payload.length ≤ 65535) :
    rfid.buildRFIDCommand cmdType (hexEncode payload)
      = some ([0x5A, 0x00, 0x00, 0x01, 0x00]
          ++ [payload.length / 256 % 256, payload.length % 256]
          ++ payload
          ++ be16 (crc16CcittFalse ([0x5A, 0x00, 0x00, 0x01, 0x00]
              ++ [payload.length / 256 % 256, payload.length % 256] ++ payload))) :=
  rfid_build_frame cmdType payload hp hl

/-- Witness of C6 at the payload `00 00 00 01` with command type 0x10. -/
theorem rfid_buildRFIDCommand_frame_witness :
    rfid.buildRFIDCommand 0x10 (hexEncode [0, 0, 0, 1])
      = some ([0x5A, 0x00, 0x00, 0x01, 0x00]
          ++ [[0, 0, 0, 1].length / 256 % 256, [0, 0, 0, 1].length % 256]
          ++ [0, 0, 0, 1]
          ++ be16 (crc16CcittFalse ([0x5A, 0x00, 0x00, 0x01, 0x00]
              ++ [[0, 0, 0, 1].length / 256 % 256, [0, 0, 0, 1].length % 256]
              ++ [0, 0, 0, 1]))) :=
  rfid_buildRFIDCommand_frame 0x10 [0, 0, 0, 1] (by decide) (by decide)

/-- The mask loop sets exactly the bits of the in-range antenna indices. -/
theorem antennaMask_fold (antennas : List Int) : ∀ m, m < 2 ^ 32 →
    antennas.foldl
        (fun (mask : Nat) (ant : Int) =>
          if 1 ≤ ant ∧ ant ≤ 32 then mask ||| ((1 <<< (ant - 1).toNat) % 4294967296) else mask)
        m < 2 ^ 32 ∧
    ∀ k, k < 32 →
      (antennas.foldl
        (fun (mask : Nat) (ant : Int) =>
          if 1 ≤ ant ∧ ant ≤ 32 then mask ||| ((1 <<< (ant - 1).toNat) % 4294967296) else mask)
        m).testBit k = (m.testBit k || decide (((k : Int) + 1) ∈ antennas)) := by
  induction antennas with
  | nil => intro m hm; exact ⟨hm, fun k _ => by simp⟩
  | cons ant rest ih =>
    intro m hm
    rw [List.foldl_cons]
    by_cases hr : 1 ≤ ant ∧ ant ≤ 32
    · rw [if_pos hr]
      have hj : (ant - 1).toNat < 32 := by omega
      have hpow : (1 <<< (ant - 1).toNat) % 4294967296 = 2 ^ (ant - 1).toNat := by
        rw [Nat.shiftLeft_eq, Nat.one_mul]
        apply Nat.mod_eq_of_lt
        calc 2 ^ (ant - 1).toNat < 2 ^ 32 := Nat.pow_lt_pow_right (by decide) hj
          _ = 4294967296 := by norm_num
      rw [hpow]
      have hm1 : m ||| 2 ^ (ant - 1).toNat < 2 ^ 32 :=
        Nat.or_lt_two_pow hm (Nat.pow_lt_pow_right (by decide) hj)
      obtain ⟨hb, ht⟩ := ih _ hm1
      refine ⟨hb, fun k hk => ?_⟩
      rw [ht k hk, Nat.testBit_or, Nat.testBit_two_pow]
      have hiff : ((ant - 1).toNat = k) ↔ ((k : Int) + 1 = ant) := by omega
      simp only [List.mem_cons, hiff, Bool.or_assoc, Bool.decide_or]
    · rw [if_neg hr]
      obtain ⟨hb, ht⟩ := ih _ hm
      refine ⟨hb, fun k hk => ?_⟩
      rw [ht k hk]
      have hne : ¬ ((k : Int) + 1 = ant) := by omega
      simp only [List.mem_cons, hne, false_or]

/-- C7: for every list of antenna indices, the frame of `generateReadEPCCommand` carries
the payload `mask ++ 01 02 00 06` with the mask as four big-endian bytes (after the header
and the length 8, before the CRC); bit `k` of the 32-bit mask is set exactly when `k < 32`
and the list contains `k + 1`, so indices outside 1..32 set nothing; for `[1, 3, 32]` the
mask is 0x80000005. -/
theorem rfid_generateReadEPCCommand_payload (antennas : List Int) :
    rfid.generateReadEPCCommand antennas
      = some ([0x5A, 0x00, 0x00, 0x01, 0x00] ++ [0x00, 0x08]
          ++ (be32 (rfid.antennaMask antennas) ++ [0x01, 0x02, 0x00, 0x06])
          ++ be16 (crc16CcittFalse ([0x5A, 0x00, 0x00, 0x01, 0x00] ++ [0x00, 0x08]
              ++ (be32 (rfid.antennaMask antennas) ++ [0x01, 0x02, 0x00, 0x06])))) ∧
    rfid.antennaMask antennas < 2 ^ 32 ∧
    (∀ k : Nat, (rfid.antennaMask antennas).testBit k = true
        ↔ (k < 32 ∧ ((k : Int) + 1) ∈ antennas)) ∧
    rfid.antennaMask [1, 3, 32] = 0x80000005 := by
  obtain ⟨hb, ht⟩ := antennaMask_fold antennas 0 (by decide)
  have hmask : rfid.antennaMask antennas < 2 ^ 32 := hb
  refine ⟨?_, hmask, ?_, by decide⟩
  · have hparams : rfid.readEPCDataParams antennas
        = hexEncode (be32 (rfid.antennaMask antennas) ++ [0x01, 0x02, 0x00, 0x06]) := by
      unfold rfid.readEPCDataParams
      rw [fmtX_eight _ (by simpa using hmask), hexEncode_append]
      have : lit "01" ++ lit "02" ++ lit "0006" = hexEncode [0x01, 0x02, 0x00, 0x06] := by decide
      rw [List.append_assoc, List.append_assoc, ← List.append_assoc (lit "01"), this]
    unfold rfid.generateReadEPCCommand
    rw [hparams]
    have h := rfid_build_frame 0x10 (be32 (rfid.antennaMask antennas) ++ [0x01, 0x02, 0x00, 0x06])
      (by
        intro b hb
        rw [List.mem_append] at hb
        rcases hb with h | h
        · exact be32_lt _ b h
        · revert b; decide)
      (by simp [be32])
    have hbe : be16 (be32 (rfid.antennaMask antennas) ++ [0x01, 0x02, 0x00, 0x06]).length
        = [0x00, 0x08] := by
      have : (be32 (rfid.antennaMask antennas) ++ [0x01, 0x02, 0x00, 0x06]).length = 8 := by
        simp [be32]
      rw [this]
      decide
    rw [hbe] at h
    exact h
  · intro k
    by_cases hk : k < 32
    · have := ht k hk
      unfold rfid.antennaMask
      rw [this]
      simp [hk]
    · have hlt : rfid.antennaMask antennas < 2 ^ k :=
        lt_of_lt_of_le hmask (Nat.pow_le_pow_right (by decide) (by omega))
      rw [Nat.testBit_lt_two_pow hlt]
      simp [hk]

/-! ## Package `screen`: the text payload -/

/-- Decoding the UTF-8 encoding of a scalar value gives the value and the encoded width. -/
theorem decodeRune_encodeRune (r : Nat) (hr : isScalar r) (rest : List Nat) :
    decodeRune (encodeRune r ++ rest) = (r, (encodeRune r).length) := by
  unfold isScalar at hr
  unfold encodeRune
  by_cases h1 : r ≤ 0x7F
  · rw [if_pos h1]
    have : r < 0x80 := by omega
    simp [decodeRune, this]
  · rw [if_neg h1]
    by_cases h2 : r ≤ 0x7FF
    · rw [if_pos h2]
      have a1 : ¬ (0xC0 + r / 64 < 0x80) := by omega
      have a2 : ¬ (0xC0 + r / 64 < 0xC2) := by omega
      have a3 : 0xC0 + r / 64 < 0xE0 := by omega
      have a4 : 0x80 ≤ 0x80 + r % 64 ∧ 0x80 + r % 64 ≤ 0xBF := by omega
      have a5 : (0xC0 + r / 64) % 32 * 64 + (0x80 + r % 64) % 64 = r := by omega
      simp only [List.cons_append, List.nil_append, decodeRune, a1, a2, a3, a4, a5, if_true,
        if_false, and_self, List.length_cons, List.length_nil]
    · rw [if_neg h2]
      have h3 : ¬ (0x10FFFF < r ∨ (0xD800 ≤ r ∧ r ≤ 0xDFFF)) := by omega
      rw [if_neg h3]
      by_cases h4 : r ≤ 0xFFFF
      · rw [if_pos h4]
        have a1 : ¬ (0xE0 + r / 4096 < 0x80) := by omega
        have a2 : ¬ (0xE0 + r / 4096 < 0xC2) := by omega
        have a3 : ¬ (0xE0 + r / 4096 < 0xE0) := by omega
        have a4 : 0xE0 + r / 4096 < 0xF0 := by omega
        have a5 : ((if 0xE0 + r / 4096 = 0xE0 then 0xA0 else 0x80) ≤ 0x80 + r / 64 % 64 ∧
            0x80 + r / 64 % 64 ≤ (if 0xE0 + r / 4096 = 0xED then 0x9F else 0xBF) ∧
            0x80 ≤ 0x80 + r % 64 ∧ 0x80 + r % 64 ≤ 0xBF) := by
          split <;> split <;> omega
        have a6 : (0xE0 + r / 4096) % 16 * 4096 + (0x80 + r / 64 % 64) % 64 * 64
            + (0x80 + r % 64) % 64 = r := by omega
        simp only [List.cons_append, List.nil_append, decodeRune, a1, a2, a3, a4, if_true,
          if_false, List.length_cons, List.length_nil]
        rw [if_pos a5, a6]
      · rw [if_neg h4]
        have a1 : ¬ (0xF0 + r / 262144 < 0x80) := by omega
        have a2 : ¬ (0xF0 + r / 262144 < 0xC2) := by omega
        have a3 : ¬ (0xF0 + r / 262144 < 0xE0) := by omega
        have a4 : ¬ (0xF0 + r / 262144 < 0xF0) := by omega
        have a4b : 0xF0 + r / 262144 < 0xF5 := by omega
        have a5 : ((if 0xF0 + r / 262144 = 0xF0 then 0x90 else 0x80) ≤ 0x80 + r / 4096 % 64 ∧
            0x80 + r / 4096 % 64 ≤ (if 0xF0 + r / 262144 = 0xF4 then 0x8F else 0xBF) ∧
            0x80 ≤ 0x80 + r / 64 % 64 ∧ 0x80 + r / 64 % 64 ≤ 0xBF ∧
            0x80 ≤ 0x80 + r % 64 ∧ 0x80 + r % 64 ≤ 0xBF) := by
          split <;> split <;> omega
        have a6 : (0xF0 + r / 262144) % 8 * 262144 + (0x80 + r / 4096 % 64) % 64 * 4096
            + (0x80 + r / 64 % 64) % 64 * 64 + (0x80 + r % 64) % 64 = r := by omega
        simp only [List.cons_append, List.nil_append, decodeRune, a1, a2, a3, a4, a4b, if_true,
          if_false, List.length_cons, List.length_nil]
        rw [if_pos a5, a6]

theorem encodeRune_lt (r : Nat) : ∀ b ∈ encodeRune r, b < 256 := by
  unfold encodeRune
  intro b hb
  split at hb
  · simp only [List.mem_singleton] at hb; omega
  · split at hb
    · simp only [List.mem_cons, List.mem_singleton, List.mem_nil_iff, or_false] at hb
      rcases hb with h | h <;> omega
    · split at hb
      · simp only [List.mem_cons, List.mem_singleton, List.mem_nil_iff, or_false] at hb
        rcases hb with h | h | h <;> omega
      · split at hb
        · simp only [List.mem_cons, List.mem_singleton, List.mem_nil_iff, or_false] at hb
          rcases hb with h | h | h <;> omega
        · simp only [List.mem_cons, List.mem_singleton, List.mem_nil_iff, or_false] at hb
          rcases hb with h | h | h | h <;> omega

theorem encodeRune_cons (r : Nat) : ∃ s0 tl, encodeRune r = s0 :: tl := by
  unfold encodeRune
  split
  · exact ⟨_, _, rfl⟩
  · split
    · exact ⟨_, _, rfl⟩
    · split
      · exact ⟨_, _, rfl⟩
      · split <;> exact ⟨_, _, rfl⟩

theorem utf8_lt (runes : List Nat) : ∀ b ∈ utf8 runes, b < 256 := by
  intro b hb
  simp only [utf8, List.mem_flatMap] at hb
  obtain ⟨r, hr, hb⟩ := hb
  exact encodeRune_lt r b hb

theorem flatMap_fmtX_two (xs : List Nat) (hxs : ∀ b ∈ xs, b < 256) :
    xs.flatMap (fmtX 2) = hexEncode xs := by
  induction xs with
  | nil => rfl
  | cons x xs ih =>
    have hx : x < 256 := hxs x (by simp)
    simp only [List.flatMap_cons, hexEncode] at ih ⊢
    rw [ih (fun b hb => hxs b (by simp [hb])), fmtX_two x hx]

/-- What one round of `stringToGBKHex` appends for a scalar value: the hex of its bytes. -/
theorem piece_eq (r : Nat) :
    (if r < 128 then fmtX 2 r else (encodeRune r).flatMap (fmtX 2)) = hexEncode (encodeRune r) := by
  by_cases h : r < 128
  · have he : encodeRune r = [r] := by
      unfold encodeRune
      rw [if_pos (by omega)]
    rw [if_pos h, he, fmtX_two r (by omega)]
    rfl
  · rw [if_neg h]
    exact flatMap_fmtX_two _ (encodeRune_lt r)

/-- On well-formed UTF-8 `stringToGBKHex` has enough fuel and hex-encodes the bytes of the
text unchanged. -/
theorem rangeLoop_utf8 (runes : List Nat) (hs : ∀ r ∈ runes, isScalar r) :
    ∀ fuel, (utf8 runes).length ≤ fuel →
      screen.rangeLoop fuel (utf8 runes) = some (hexEncode (utf8 runes)) := by
  induction runes with
  | nil =>
    intro fuel _
    cases fuel <;> rfl
  | cons r rs ih =>
    intro fuel hf
    have hr : isScalar r := hs r (by simp)
    have hu : utf8 (r :: rs) = encodeRune r ++ utf8 rs := by simp [utf8]
    obtain ⟨s0, tl, he⟩ := encodeRune_cons r
    have hdec := decodeRune_encodeRune r hr (utf8 rs)
    rw [hu] at hf ⊢
    rw [he] at hf hdec
    have hdrop : List.drop (s0 :: tl).length (s0 :: tl ++ utf8 rs) = utf8 rs :=
      List.drop_left _ _
    cases fuel with
    | zero => simp at hf
    | succ f =>
      have hrec := ih (fun x hx => hs x (by simp [hx])) f (by
        simp only [List.length_append, List.length_cons] at hf; omega)
      rw [he, hexEncode_append, ← he, ← piece_eq r, he]
      simp only [List.cons_append] at hdec hdrop ⊢
      simp only [screen.rangeLoop, hdec, hdrop, hrec, he]

theorem stringToGBKHex_utf8 (runes : List Nat) (hs : ∀ r ∈ runes, isScalar r) :
    screen.stringToGBKHex (utf8 runes) = some (hexEncode (utf8 runes)) :=
  rangeLoop_utf8 runes hs _ (Nat.le_refl _)

/-! ## Package `screen`: frames -/

theorem screen_hexPairAt_pair (pre : List Nat) (a b : Nat) (post : List Nat) :
    screen.hexPairAt (pre ++ a :: b :: post) pre.length = some (switchPair a b) := by
  obtain ⟨h1, h2⟩ := pairs_getElem pre a b post
  simp only [screen.hexPairAt, h1, h2, switchPair]

theorem nibbles_or : ∀ a, a < 16 → ∀ b, b < 16 → (a * 16) ||| b = a * 16 + b := by decide

theorem hexVal_lt (c : Nat) (h : isHexChar c) : hexVal c < 16 := by
  unfold isHexChar at h
  unfold hexVal
  split
  · omega
  · split <;> omega

/-- The switch of `hexToBytes` on two hexadecimal digits of either case. -/
theorem switchPair_hex (c1 c2 : Nat) (h1 : isHexChar c1) (h2 : isHexChar c2) :
    switchPair c1 c2 = hexVal c1 * 16 + hexVal c2 := by
  have hv1 := hexVal_lt c1 h1
  have hv2 := hexVal_lt c2 h2
  have hhi : (if 48 ≤ c1 ∧ c1 ≤ 57 then ((c1 - 48) <<< 4) % 256
      else if 65 ≤ c1 ∧ c1 ≤ 70 then ((c1 - 65 + 10) <<< 4) % 256
      else if 97 ≤ c1 ∧ c1 ≤ 102 then ((c1 - 97 + 10) <<< 4) % 256
      else 0) = hexVal c1 * 16 := by
    unfold isHexChar at h1
    unfold hexVal at hv1 ⊢
    simp only [Nat.shiftLeft_eq]
    split_ifs <;> omega
  have hlo : ∀ v, (if 48 ≤ c2 ∧ c2 ≤ 57 then v ||| (c2 - 48)
      else if 65 ≤ c2 ∧ c2 ≤ 70 then v ||| (c2 - 65 + 10)
      else if 97 ≤ c2 ∧ c2 ≤ 102 then v ||| (c2 - 97 + 10)
      else v) = v ||| hexVal c2 := by
    intro v
    unfold isHexChar at h2
    have e1 : 48 ≤ c2 ∧ c2 ≤ 57 → c2 - 48 = hexVal c2 := by
      intro h; unfold hexVal; split_ifs <;> omega
    have e2 : 65 ≤ c2 ∧ c2 ≤ 70 → c2 - 65 + 10 = hexVal c2 := by
      intro h; unfold hexVal; split_ifs <;> omega
    have e3 : 97 ≤ c2 ∧ c2 ≤ 102 → c2 - 97 + 10 = hexVal c2 := by
      intro h; unfold hexVal; split_ifs <;> omega
    split_ifs with a b c
    · rw [e1 a]
    · rw [e2 b]
    · rw [e3 c]
    · omega
  unfold switchPair
  simp only [hhi, hlo]
  exact nibbles_or _ hv1 _ hv2

/-- The frame of `screen.generateCommand` once the text is hex-encoded byte for byte. -/
theorem screen_frame_of_dataHex (c1 c2 : Nat) (text : List Nat)
    (ht : ∀ b ∈ text, b < 256) (hlen : text.length < 254)
    (h1 : isHexChar c1) (h2 : isHexChar c2)
    (hd : screen.stringToGBKHex text = some (hexEncode text)) :
    screen.generateCommand [c1, c2] text
      = some ([0xEE, text.length + 2, 0xEE, hexVal c1 * 16 + hexVal c2] ++ text
          ++ [0xFF, 0xFC]) := by
  have hEE : lit "EE" = [69, 69] := by decide
  have hFF : lit "FF" = [70, 70] := by decide
  have hFC : lit "FC" = [70, 67] := by decide
  have hL : (lit "EE" ++ [c1, c2] ++ hexEncode text ++ lit "FF").length / 2 - 1
      = text.length + 2 := by
    simp only [hEE, hFF, List.length_append, hexEncode_length, List.length_cons,
      List.length_nil]
    omega
  have hfull : lit "EE" ++ fmtX 2 (text.length + 2)
        ++ (lit "EE" ++ [c1, c2] ++ hexEncode text ++ lit "FF") ++ lit "FC"
      = (([(69, 69), (hexDigit ((text.length + 2) / 16), hexDigit ((text.length + 2) % 16)),
            (69, 69), (c1, c2)]
          ++ (text.map fun b => (hexDigit (b / 16), hexDigit (b % 16)))
          ++ [(70, 70), (70, 67)]).flatMap fun p => [p.1, p.2]) := by
    rw [fmtX_two _ (by omega), hexEncode_pairs, hEE, hFF, hFC]
    simp only [List.flatMap_append, List.flatMap_cons, List.flatMap_nil, List.append_assoc,
      List.cons_append, List.nil_append, List.append_nil]
  unfold screen.generateCommand
  rw [hd]
  simp only [hL]
  rw [hfull]
  unfold screen.hexToBytes
  rw [bytesLoop_pairs_start _ switchPair screen_hexPairAt_pair]
  have hlenb : switchPair (hexDigit ((text.length + 2) / 16)) (hexDigit ((text.length + 2) % 16))
      = text.length + 2 := by
    rw [switchPair_upper _ (by omega) _ (by omega)]; omega
  have h69 : switchPair 69 69 = 0xEE := by decide
  have h70 : switchPair 70 70 = 0xFF := by decide
  have h7067 : switchPair 70 67 = 0xFC := by decide
  simp only [List.map_append, List.map_cons, List.map_nil, hlenb, h69, h70, h7067,
    switchPair_hex c1 c2 h1 h2, map_byte_id switchPair hexDigit switchPair_upper text ht,
    List.cons_append, List.nil_append]

/-- C8 (amended): for every command text that is well-formed UTF-8 (the encoding of a
sequence of Unicode scalar values) of fewer than 254 bytes and every command ID given as
two hex digits, `screen.generateCommand` returns `EE ++ lengthByte ++ innerFrame ++ FC`
with `innerFrame = EE ++ commandID ++ (the bytes of the text) ++ FF` and
`lengthByte = byteLength(innerFrame) - 1`; for the text `t0.txt=""` and ID "00" the frame
is `EE 0B EE 00 74 30 2E 74 78 74 3D 22 22 FF FC`. -/
theorem screen_generateCommand_frame (runes : List Nat) (c1 c2 : Nat)
    (hs : ∀ r ∈ runes, isScalar r) (hlen : (utf8 runes).length < 254)
    (h1 : isHexChar c1) (h2 : isHexChar c2) :
    screen.generateCommand [c1, c2] (utf8 runes)
      = some ([0xEE]
          ++ [([0xEE] ++ [hexVal c1 * 16 + hexVal c2] ++ utf8 runes ++ [0xFF]).length - 1]
          ++ ([0xEE] ++ [hexVal c1 * 16 + hexVal c2] ++ utf8 runes ++ [0xFF])
          ++ [0xFC]) ∧
    screen.generateCommand (lit "00") (lit "t0.txt=\"\"")
      = some [0xEE, 0x0B, 0xEE, 0x00, 0x74, 0x30, 0x2E, 0x74, 0x78, 0x74, 0x3D, 0x22, 0x22,
          0xFF, 0xFC] := by
  refine ⟨?_, by decide⟩
  rw [screen_frame_of_dataHex c1 c2 (utf8 runes) (utf8_lt runes) hlen h1 h2
    (stringToGBKHex_utf8 runes hs)]
  have : ([0xEE] ++ [hexVal c1 * 16 + hexVal c2] ++ utf8 runes ++ [0xFF]).length - 1
      = (utf8 runes).length + 2 := by
    simp only [List.length_append, List.length_cons, List.length_nil]
    omega
  rw [this]
  simp only [List.cons_append, List.nil_append, List.append_assoc]

/-- Witness of C8 at the text `é=1` (a two-byte character and two ASCII ones), ID "0a". -/
theorem screen_generateCommand_frame_witness :
    screen.generateCommand [48, 97] (utf8 [0xE9, 0x3D, 0x31])
      = some ([0xEE]
          ++ [([0xEE] ++ [hexVal 48 * 16 + hexVal 97] ++ utf8 [0xE9, 0x3D, 0x31]
                ++ [0xFF]).length - 1]
          ++ ([0xEE] ++ [hexVal 48 * 16 + hexVal 97] ++ utf8 [0xE9, 0x3D, 0x31] ++ [0xFF])
          ++ [0xFC]) ∧
    screen.generateCommand (lit "00") (lit "t0.txt=\"\"")
      = some [0xEE, 0x0B, 0xEE, 0x00, 0x74, 0x30, 0x2E, 0x74, 0x78, 0x74, 0x3D, 0x22, 0x22,
          0xFF, 0xFC] :=
  screen_generateCommand_frame [0xE9, 0x3D, 0x31] 48 97 (by decide) (by decide)
    (by decide) (by decide)

set_option maxRecDepth 1000000 in
/-- A text of 254 letters `A`: the hex string gets an odd length and `hexToBytes` panics. -/
theorem screen_text_254_panics :
    screen.generateCommand (lit "00") (List.replicate 254 0x41) = none := by
  decide

/-- C8 as stated fails for a text of 254 bytes, where the length does not fit the two
digits of `%02X`, the hex string gets an odd length and `hexToBytes` panics; and for a text
that is not well-formed UTF-8, whose byte `FF` is sent as `EF BF BD`. -/
theorem screen_generateCommand_not_every_text :
    screen.generateCommand (lit "00") (List.replicate 254 0x41) = none ∧
    screen.generateCommand (lit "00") [0xFF]
      = some [0xEE, 0x05, 0xEE, 0x00, 0xEF, 0xBF, 0xBD, 0xFF, 0xFC] ∧
    screen.generateCommand (lit "00") [0xFF]
      ≠ some ([0xEE] ++ [([0xEE] ++ [0x00] ++ [0xFF] ++ [0xFF]).length - 1]
          ++ ([0xEE] ++ [0x00] ++ [0xFF] ++ [0xFF]) ++ [0xFC]) :=
  ⟨screen_text_254_panics, by decide, by decide⟩

/-! ## The polling loop of `QueryAll` -/

namespace lock

theorem queryAll_frame (b : Nat) (h1 : 1 ≤ b) (h8 : b ≤ 8) :
    generateQueryAllCommand (b : Int) = some (queryFrame b) := by
  have hb : b = 1 ∨ b = 2 ∨ b = 3 ∨ b = 4 ∨ b = 5 ∨ b = 6 ∨ b = 7 ∨ b = 8 := by omega
  rcases hb with h | h | h | h | h | h | h | h <;> subst h <;> decide

theorem withHandle_handle (c : Controller) (h h1 : Conn) (hh : c.handle = some h) :
    (c.withHandle h1).handle = some h1 ∧
    (c.withHandle h1).isConnected = c.isConnected ∧
    (c.withHandle h1).prepOp = c.prepOp := by
  unfold Controller.handle at hh
  unfold Controller.withHandle Controller.handle Controller.prepOp
  cases hs : c.serialConn with
  | some x => simp
  | none =>
    rw [hs] at hh
    simp only at hh
    rw [hh]
    simp [hs]

theorem write_eq (c : Controller) (h : Conn) (hc : c.isConnected = true)
    (hh : c.handle = some h) (data : List Nat) :
    c.Write data = ((h.write data).1, c.withHandle (h.write data).2) := by
  unfold Controller.handle at hh
  unfold Controller.Write Controller.withHandle
  cases hs : c.serialConn with
  | some x =>
    rw [hs] at hh
    simp only [Option.some.injEq] at hh
    subst hh
    simp [hc]
  | none =>
    rw [hs] at hh
    simp only at hh
    simp [hc, hh]

theorem read_eq (c : Controller) (h : Conn) (hc : c.isConnected = true)
    (hh : c.handle = some h) (bufLen : Nat) :
    c.Read bufLen = ((h.read bufLen).1, c.withHandle (h.read bufLen).2) := by
  unfold Controller.handle at hh
  unfold Controller.Read Controller.withHandle
  cases hs : c.serialConn with
  | some x =>
    rw [hs] at hh
    simp only [Option.some.injEq] at hh
    subst hh
    simp [hc]
  | none =>
    rw [hs] at hh
    simp only at hh
    simp [hc, hh]

theorem prepareRead_eq (c : Controller) (h : Conn) (hh : c.handle = some h) :
    c.prepareRead = c.withHandle (h.note c.prepOp) := by
  unfold Controller.handle at hh
  unfold Controller.prepareRead Controller.withHandle Controller.prepOp
  cases hs : c.serialConn with
  | some x =>
    rw [hs] at hh
    simp only [Option.some.injEq] at hh
    subst hh
    simp
  | none =>
    rw [hs] at hh
    simp only at hh
    simp [hh]

theorem withHandle_withHandle (c : Controller) (h h1 h2 : Conn) (hh : c.handle = some h) :
    (c.withHandle h1).withHandle h2 = c.withHandle h2 := by
  unfold Controller.handle at hh
  unfold Controller.withHandle
  cases hs : c.serialConn with
  | some x => simp
  | none =>
    rw [hs] at hh
    simp only at hh
    simp [hh, hs]

end lock

namespace lock

theorem write_snd (h : Conn) (data : List Nat) :
    (h.write data).2 = { h with nWrites := h.nWrites + 1, log := h.log ++ [Op.write data] } := by
  unfold Conn.write
  split <;> rfl

theorem read_snd (h : Conn) (n : Nat) :
    (h.read n).2 = { h with nReads := h.nReads + 1, log := h.log ++ [Op.read n] } := by
  unfold Conn.read
  split <;> rfl

theorem read_fst (h : Conn) (n : Nat) :
    (h.read n).1
      = (((h.rd h.nReads).1.take n).length,
          (h.rd h.nReads).1.take n
            ++ List.replicate (n - ((h.rd h.nReads).1.take n).length) 0,
          (h.rd h.nReads).2.map Err.io) := by
  unfold Conn.read
  split <;> rename_i hx <;> simp [hx]

theorem exchange_handle (h : Conn) (prep : Op) (b : Nat) :
    ((((h.write (queryFrame b)).2.note prep).read 256).2) = h.afterExchange prep b := by
  rw [read_snd, write_snd]
  simp [Conn.note, Conn.afterExchange, boardOps]

theorem exchange_result (h : Conn) (prep : Op) (b : Nat) :
    ((((h.write (queryFrame b)).2.note prep).read 256).1)
      = (((h.rd h.nReads).1.take 256).length,
          (h.rd h.nReads).1.take 256
            ++ List.replicate (256 - ((h.rd h.nReads).1.take 256).length) 0,
          (h.rd h.nReads).2.map Err.io) := by
  rw [read_fst, write_snd]
  simp [Conn.note]

/-- The loop body when the write for the board fails. -/
theorem loop_write_fails (fuel a : Nat) (acc : List LockStatus) (c : Controller) (h : Conn)
    (hc : c.isConnected = true) (hh : c.handle = some h) (h1 : 1 ≤ a) (h8 : a ≤ 8)
    (code : Nat) (hw : h.wr h.nWrites = some code) :
    queryAllLoop (fuel + 1) a acc c
      = some (([], some (Err.queryFailed a (Err.io code))), c.withHandle (h.afterWrite a)) := by
  rw [queryAllLoop, if_pos h8, queryAll_frame a h1 h8]
  have hr1 : (h.write (queryFrame a)).1 = (0, some (Err.io code)) := by
    simp [Conn.write, hw]
  simp only [write_eq c h hc hh, hr1, write_snd, Conn.afterWrite]

/-- The loop body when the write succeeds and the read for the board fails. -/
theorem loop_read_fails (fuel a : Nat) (acc : List LockStatus) (c : Controller) (h : Conn)
    (hc : c.isConnected = true) (hh : c.handle = some h) (h1 : 1 ≤ a) (h8 : a ≤ 8)
    (hw : h.wr h.nWrites = none) (code : Nat) (hr : (h.rd h.nReads).2 = some code) :
    queryAllLoop (fuel + 1) a acc c
      = some (([], some (Err.readFailed a (Err.io code))),
          c.withHandle (h.afterExchange c.prepOp a)) := by
  have hx := exchange_handle h c.prepOp a
  obtain ⟨hh1, hc1, hp1⟩ := withHandle_handle c h (h.write (queryFrame a)).2 hh
  obtain ⟨hh2, hc2, _⟩ := withHandle_handle (c.withHandle (h.write (queryFrame a)).2)
    (h.write (queryFrame a)).2 ((h.write (queryFrame a)).2.note c.prepOp) hh1
  rw [queryAllLoop, if_pos h8, queryAll_frame a h1 h8]
  simp only [write_eq c h hc hh]
  have hr1 : (h.write (queryFrame a)).1 = ((queryFrame a).length, none) := by
    simp [Conn.write, hw]
  rw [hr1]
  simp only
  rw [prepareRead_eq _ _ hh1, hp1, withHandle_withHandle c h _ _ hh,
    read_eq _ _ (by rw [withHandle_handle c h _ hh |>.2.1]; exact hc)
      (withHandle_handle c h _ hh).1,
    withHandle_withHandle c h _ _ hh, hx]
  rw [exchange_result, hr]
  rfl

/-- The loop body when both the write and the read for the board succeed. -/
theorem loop_board_ok (fuel a : Nat) (acc : List LockStatus) (c : Controller) (h : Conn)
    (hc : c.isConnected = true) (hh : c.handle = some h) (h1 : 1 ≤ a) (h8 : a ≤ 8)
    (hw : h.wr h.nWrites = none) (hr : (h.rd h.nReads).2 = none) :
    queryAllLoop (fuel + 1) a acc c
      = queryAllLoop fuel (a + 1) (acc ++ (statusOf h.rd h.nReads a).toList)
          (c.withHandle (h.afterExchange c.prepOp a)) := by
  have hx := exchange_handle h c.prepOp a
  obtain ⟨hh1, hc1, hp1⟩ := withHandle_handle c h (h.write (queryFrame a)).2 hh
  rw [queryAllLoop, if_pos h8, queryAll_frame a h1 h8]
  simp only [write_eq c h hc hh]
  have hr1 : (h.write (queryFrame a)).1 = ((queryFrame a).length, none) := by
    simp [Conn.write, hw]
  rw [hr1]
  simp only
  rw [prepareRead_eq _ _ hh1, hp1, withHandle_withHandle c h _ _ hh,
    read_eq _ _ (by rw [withHandle_handle c h _ hh |>.2.1]; exact hc)
      (withHandle_handle c h _ hh).1,
    withHandle_withHandle c h _ _ hh, hx]
  rw [exchange_result, hr]
  simp only [Option.map_none', List.take_left']
  congr 1
  unfold statusOf
  split <;> simp

end lock

namespace lock

theorem ops_of_handle (c : Controller) (h : Conn) (hh : c.handle = some h) : c.ops = h.log := by
  unfold Controller.ops
  rw [hh]

/-- The loop from board `a` on, when the `n` boards `a .. 8` all answer without error. -/
theorem loop_all_ok (n : Nat) : ∀ (a fuel : Nat) (acc : List LockStatus) (c : Controller)
    (h : Conn), c.isConnected = true → c.handle = some h → 1 ≤ a → a + n = 9 → n < fuel →
    (∀ i, i < n → h.wr (h.nWrites + i) = none) →
    (∀ i, i < n → (h.rd (h.nReads + i)).2 = none) →
    ∃ c1, queryAllLoop fuel a acc c = some ((acc ++ collected h.rd h.nReads a n, none), c1) ∧
      c1.ops = h.log ++ exchangeOps c.prepOp a n := by
  induction n with
  | zero =>
    intro a fuel acc c h hc hh h1 ha hf hw hr
    cases fuel with
    | zero => omega
    | succ f =>
      refine ⟨c, ?_, ?_⟩
      · rw [queryAllLoop, if_neg (by omega)]
        simp [collected]
      · rw [ops_of_handle c h hh]
        simp [exchangeOps]
  | succ n ih =>
    intro a fuel acc c h hc hh h1 ha hf hw hr
    cases fuel with
    | zero => omega
    | succ f =>
      obtain ⟨hh1, hc1, hp1⟩ := withHandle_handle c h (h.afterExchange c.prepOp a) hh
      have hw0 : h.wr h.nWrites = none := hw 0 (by omega)
      have hr0 : (h.rd h.nReads).2 = none := hr 0 (by omega)
      rw [loop_board_ok f a acc c h hc hh h1 (by omega) hw0 hr0]
      obtain ⟨c1, he, ho⟩ := ih (a + 1) f (acc ++ (statusOf h.rd h.nReads a).toList)
        (c.withHandle (h.afterExchange c.prepOp a)) (h.afterExchange c.prepOp a)
        (by rw [hc1]; exact hc) hh1 (by omega) (by omega) (by omega)
        (fun i hi => by
          have := hw (i + 1) (by omega)
          simpa [Conn.afterExchange, Nat.add_assoc, Nat.add_comm 1 i] using this)
        (fun i hi => by
          have := hr (i + 1) (by omega)
          simpa [Conn.afterExchange, Nat.add_assoc, Nat.add_comm 1 i] using this)
      refine ⟨c1, ?_, ?_⟩
      · rw [he]
        simp [collected, Conn.afterExchange, List.append_assoc]
      · rw [ho, hp1]
        simp [exchangeOps, Conn.afterExchange, List.append_assoc]

/-- The loop from board `a` on, when the boards `a .. a + d - 1` answer and the write or
the read for board `a + d` fails. -/
theorem loop_first_failure (d : Nat) : ∀ (a fuel : Nat) (acc : List LockStatus)
    (c : Controller) (h : Conn), c.isConnected = true → c.handle = some h → 1 ≤ a →
    a + d ≤ 8 → d < fuel →
    (∀ i, i < d → h.wr (h.nWrites + i) = none ∧ (h.rd (h.nReads + i)).2 = none) →
    (h.wr (h.nWrites + d) ≠ none ∨ (h.rd (h.nReads + d)).2 ≠ none) →
    ∃ e c1, queryAllLoop fuel a acc c = some (([], some e), c1) ∧
      ((∃ code, e = Err.queryFailed (a + d) (Err.io code) ∧
          c1.ops = h.log ++ exchangeOps c.prepOp a d ++ [Op.write (queryFrame (a + d))]) ∨
       (∃ code, e = Err.readFailed (a + d) (Err.io code) ∧
          c1.ops = h.log ++ exchangeOps c.prepOp a d ++ boardOps c.prepOp (a + d))) := by
  induction d with
  | zero =>
    intro a fuel acc c h hc hh h1 ha hf _ hfail
    cases fuel with
    | zero => omega
    | succ f =>
      simp only [Nat.add_zero] at hfail ⊢
      cases hw : h.wr h.nWrites with
      | some code =>
        refine ⟨_, _, loop_write_fails f a acc c h hc hh h1 ha code hw, Or.inl ⟨code, rfl, ?_⟩⟩
        rw [ops_of_handle _ _ (withHandle_handle c h _ hh).1]
        simp [exchangeOps, Conn.afterWrite]
      | none =>
        cases hr : (h.rd h.nReads).2 with
        | none => rw [hw, hr] at hfail; simp at hfail
        | some code =>
          refine ⟨_, _, loop_read_fails f a acc c h hc hh h1 ha hw code hr,
            Or.inr ⟨code, rfl, ?_⟩⟩
          rw [ops_of_handle _ _ (withHandle_handle c h _ hh).1]
          simp [exchangeOps, Conn.afterExchange]
  | succ d ih =>
    intro a fuel acc c h hc hh h1 ha hf hok hfail
    cases fuel with
    | zero => omega
    | succ f =>
      obtain ⟨hh1, hc1, hp1⟩ := withHandle_handle c h (h.afterExchange c.prepOp a) hh
      obtain ⟨hw0, hr0⟩ := hok 0 (by omega)
      rw [loop_board_ok f a acc c h hc hh h1 (by omega) hw0 hr0]
      obtain ⟨e, c1, he, ho⟩ := ih (a + 1) f (acc ++ (statusOf h.rd h.nReads a).toList)
        (c.withHandle (h.afterExchange c.prepOp a)) (h.afterExchange c.prepOp a)
        (by rw [hc1]; exact hc) hh1 (by omega) (by omega) (by omega)
        (fun i hi => by
          have := hok (i + 1) (by omega)
          simpa [Conn.afterExchange, Nat.add_assoc, Nat.add_comm 1 i] using this)
        (by
          simpa [Conn.afterExchange, Nat.add_assoc, Nat.add_comm 1 d] using hfail)
      have hadd : a + 1 + d = a + (d + 1) := by omega
      refine ⟨e, c1, he, ?_⟩
      rw [hp1, hadd] at ho
      rcases ho with ⟨code, h1e, h2e⟩ | ⟨code, h1e, h2e⟩
      · refine Or.inl ⟨code, h1e, ?_⟩
        rw [h2e]
        simp [exchangeOps, Conn.afterExchange, List.append_assoc]
      · refine Or.inr ⟨code, h1e, ?_⟩
        rw [h2e]
        simp [exchangeOps, Conn.afterExchange, List.append_assoc]

end lock

/-- C9: for a connected lock controller whose transport fails the write or the read for
some board address `k` in 1..8, `QueryAll` returns an error and the nil collection; the
error names the first failing board `k0 ≤ k`, and the operations performed are the complete
exchanges with boards `1 .. k0 - 1` followed by the write for `k0` (and, when that write
succeeds, the failing read), nothing for any later board. With a read error at board 4
the statuses of boards 1..3 are not returned. -/
theorem lock_queryAll_fail_fast (c : lock.Controller) (h : lock.Conn)
    (hc : c.isConnected = true) (hh : c.handle = some h)
    (k : Nat) (hk1 : 1 ≤ k) (hk8 : k ≤ 8) (hfail : h.boardFails k) :
    (∃ k0 e c1, 1 ≤ k0 ∧ k0 ≤ k ∧ h.boardFails k0 ∧
      (∀ j, 1 ≤ j → j < k0 → ¬ h.boardFails j) ∧
      c.QueryAll = some (([], some e), c1) ∧
      ((∃ code, e = lock.Err.queryFailed k0 (lock.Err.io code) ∧
          c1.ops = c.ops ++ lock.exchangeOps c.prepOp 1 (k0 - 1)
            ++ [lock.Op.write (lock.queryFrame k0)]) ∨
       (∃ code, e = lock.Err.readFailed k0 (lock.Err.io code) ∧
          c1.ops = c.ops ++ lock.exchangeOps c.prepOp 1 (k0 - 1)
            ++ lock.boardOps c.prepOp k0))) ∧
    (lock.Controller.QueryAll lock.readErrorAtBoard4).map (fun r => r.1)
      = some ([], some (lock.Err.readFailed 4 (lock.Err.io 9))) := by
  refine ⟨?_, by decide⟩
  have hex : ∃ i, h.wr (h.nWrites + i) ≠ none ∨ (h.rd (h.nReads + i)).2 ≠ none :=
    ⟨k - 1, hfail⟩
  have hle : Nat.find hex ≤ k - 1 := Nat.find_min' hex hfail
  have hspec := Nat.find_spec hex
  have hmin : ∀ i, i < Nat.find hex →
      h.wr (h.nWrites + i) = none ∧ (h.rd (h.nReads + i)).2 = none := by
    intro i hi
    have := Nat.find_min hex hi
    simp only [not_or, ne_eq, not_not] at this
    exact this
  obtain ⟨e, c1, he, ho⟩ := lock.loop_first_failure (Nat.find hex) 1 9 [] c h hc hh
    (Nat.le_refl 1) (by omega) (by omega) hmin hspec
  have hq : c.QueryAll = some (([], some e), c1) := by
    unfold lock.Controller.QueryAll
    rw [hc]
    exact he
  have hk0 : 1 + Nat.find hex - 1 = Nat.find hex := by omega
  refine ⟨1 + Nat.find hex, e, c1, by omega, by omega, ?_, ?_, hq, ?_⟩
  · unfold lock.Conn.boardFails
    rw [hk0]
    exact hspec
  · intro j hj1 hj hf
    unfold lock.Conn.boardFails at hf
    obtain ⟨hw, hr⟩ := hmin (j - 1) (by omega)
    rcases hf with hf | hf
    · exact hf hw
    · exact hf hr
  · rw [hk0, lock.ops_of_handle c h hh]
    exact ho

/-- Witness of C9: a socket transport whose read for board 4 fails with code 9. -/
theorem lock_queryAll_fail_fast_witness :
    (∃ k0 e c1, 1 ≤ k0 ∧ k0 ≤ 4 ∧
      (lock.Conn.mk (fun _ => none)
        (fun i => if i = 3 then ([], some 9) else ([0x80, i + 1], none)) 0 0 []).boardFails k0 ∧
      (∀ j, 1 ≤ j → j < k0 →
        ¬ (lock.Conn.mk (fun _ => none)
          (fun i => if i = 3 then ([], some 9) else ([0x80, i + 1], none)) 0 0 []).boardFails j) ∧
      lock.Controller.QueryAll lock.readErrorAtBoard4 = some (([], some e), c1) ∧
      ((∃ code, e = lock.Err.queryFailed k0 (lock.Err.io code) ∧
          c1.ops = lock.Controller.ops lock.readErrorAtBoard4
            ++ lock.exchangeOps (lock.Controller.prepOp lock.readErrorAtBoard4) 1 (k0 - 1)
            ++ [lock.Op.write (lock.queryFrame k0)]) ∨
       (∃ code, e = lock.Err.readFailed k0 (lock.Err.io code) ∧
          c1.ops = lock.Controller.ops lock.readErrorAtBoard4
            ++ lock.exchangeOps (lock.Controller.prepOp lock.readErrorAtBoard4) 1 (k0 - 1)
            ++ lock.boardOps (lock.Controller.prepOp lock.readErrorAtBoard4) k0))) ∧
    (lock.Controller.QueryAll lock.readErrorAtBoard4).map (fun r => r.1)
      = some ([], some (lock.Err.readFailed 4 (lock.Err.io 9))) :=
  lock_queryAll_fail_fast lock.readErrorAtBoard4
    (lock.Conn.mk (fun _ => none)
      (fun i => if i = 3 then ([], some 9) else ([0x80, i + 1], none)) 0 0 [])
    rfl rfl 4 (by decide) (by decide) (by decide)

theorem filterMap_cons_toList {α β : Type} (f : α → Option β) (x : α) (xs : List α) :
    (x :: xs).filterMap f = (f x).toList ++ xs.filterMap f := by
  cases hx : f x with
  | none => rw [List.filterMap_cons_none hx]; rfl
  | some y => rw [List.filterMap_cons_some hx]; rfl

theorem collected_eight (rd : Nat → List Nat × Option Nat) (r : Nat) :
    lock.collected rd r 1 8
      = [1, 2, 3, 4, 5, 6, 7, 8].filterMap (fun j => lock.statusOf rd (r + (j - 1)) j) := by
  simp only [lock.collected, filterMap_cons_toList, List.filterMap_nil, List.append_nil,
    Nat.add_assoc]
  rfl

theorem statuses_ascending (rd : Nat → List Nat × Option Nat) (r : Nat) (l : List Nat) :
    (l.filterMap (fun j => lock.statusOf rd (r + (j - 1)) j)).map (fun st => st.BoardAddr)
      = l.filter (fun j => decide (0 < ((rd (r + (j - 1))).1.take 256).length)) := by
  induction l with
  | nil => rfl
  | cons j l ih =>
    by_cases hj : 0 < ((rd (r + (j - 1))).1.take 256).length
    · have hs : lock.statusOf rd (r + (j - 1)) j
          = some { BoardAddr := j, Data := (rd (r + (j - 1))).1.take 256,
                   Length := ((rd (r + (j - 1))).1.take 256).length } := by
        unfold lock.statusOf; rw [if_pos hj]
      rw [filterMap_cons_toList, hs, List.filter_cons_of_pos (by simpa using hj)]
      simp only [Option.toList, List.singleton_append, List.map_cons, ih]
    · have hs : lock.statusOf rd (r + (j - 1)) j = none := by
        unfold lock.statusOf; rw [if_neg hj]
      rw [filterMap_cons_toList, hs, List.filter_cons_of_neg (by simpa using hj)]
      simp only [Option.toList, List.nil_append, ih]

/-- C10: for a connected lock controller whose transport fails no write and no read of
the eight boards, `QueryAll` returns without error the list that holds, for each board
address `j` of 1..8 in this order, one entry when the read for `j` delivered `n > 0` bytes
(`BoardAddr = j`, `Data` the `n` bytes, `Length = n`) and none when it delivered zero
bytes; the addresses in the list are strictly ascending; with board 5 absent and all
others answering the list has the 7 entries of boards 1, 2, 3, 4, 6, 7, 8. -/
theorem lock_queryAll_collects (c : lock.Controller) (h : lock.Conn)
    (hc : c.isConnected = true) (hh : c.handle = some h)
    (hok : ∀ j, 1 ≤ j → j ≤ 8 → ¬ h.boardFails j) :
    (∃ c1, c.QueryAll
        = some (([1, 2, 3, 4, 5, 6, 7, 8].filterMap (fun j =>
            if 0 < ((h.rd (h.nReads + (j - 1))).1.take 256).length then
              some { BoardAddr := j, Data := (h.rd (h.nReads + (j - 1))).1.take 256,
                     Length := ((h.rd (h.nReads + (j - 1))).1.take 256).length }
            else none), none), c1)) ∧
    (([1, 2, 3, 4, 5, 6, 7, 8].filterMap (fun j =>
        lock.statusOf h.rd (h.nReads + (j - 1)) j)).map (fun st => st.BoardAddr)).Pairwise
      (fun x y => x < y) ∧
    (lock.Controller.QueryAll lock.board5Absent).map (fun r => (r.1.1.map (fun st => st.BoardAddr), r.1.2))
      = some ([1, 2, 3, 4, 6, 7, 8], none) ∧
    (lock.Controller.QueryAll lock.board5Absent).map (fun r => r.1.1.length) = some 7 := by
  refine ⟨?_, ?_, by decide, by decide⟩
  · have hall : ∀ i, i < 8 →
        h.wr (h.nWrites + i) = none ∧ (h.rd (h.nReads + i)).2 = none := by
      intro i hi
      have := hok (i + 1) (by omega) (by omega)
      unfold lock.Conn.boardFails at this
      simp only [not_or, ne_eq, not_not, Nat.add_sub_cancel] at this
      exact this
    obtain ⟨c1, he, _⟩ := lock.loop_all_ok 8 1 9 [] c h hc hh (Nat.le_refl 1) (by decide)
      (by decide) (fun i hi => (hall i hi).1) (fun i hi => (hall i hi).2)
    refine ⟨c1, ?_⟩
    unfold lock.Controller.QueryAll
    rw [hc]
    simp only [Bool.not_true, Bool.false_eq_true, if_false]
    rw [he, List.nil_append, collected_eight]
    rfl
  · rw [statuses_ascending]
    exact List.Pairwise.sublist (List.filter_sublist _) (by decide)

/-- Witness of C10: a socket transport on which only board 5 delivers no bytes. -/
theorem lock_queryAll_collects_witness :
    (∃ c1, lock.Controller.QueryAll lock.board5Absent
        = some (([1, 2, 3, 4, 5, 6, 7, 8].filterMap (fun j =>
            if 0 < (((lock.Conn.mk (fun _ => none)
                (fun i => if i = 4 then ([], none) else ([0x80, i + 1], none)) 0 0 []).rd
                  (0 + (j - 1))).1.take 256).length then
              some { BoardAddr := j,
                     Data := ((lock.Conn.mk (fun _ => none)
                        (fun i => if i = 4 then ([], none) else ([0x80, i + 1], none)) 0 0 []).rd
                          (0 + (j - 1))).1.take 256,
                     Length := (((lock.Conn.mk (fun _ => none)
                        (fun i => if i = 4 then ([], none) else ([0x80, i + 1], none)) 0 0 []).rd
                          (0 + (j - 1))).1.take 256).length }
            else none), none), c1)) ∧
    (([1, 2, 3, 4, 5, 6, 7, 8].filterMap (fun j =>
        lock.statusOf (lock.Conn.mk (fun _ => none)
          (fun i => if i = 4 then ([], none) else ([0x80, i + 1], none)) 0 0 []).rd
          (0 + (j - 1)) j)).map (fun st => st.BoardAddr)).Pairwise
      (fun x y => x < y) ∧
    (lock.Controller.QueryAll lock.board5Absent).map (fun r => (r.1.1.map (fun st => st.BoardAddr), r.1.2))
      = some ([1, 2, 3, 4, 6, 7, 8], none) ∧
    (lock.Controller.QueryAll lock.board5Absent).map (fun r => r.1.1.length) = some 7 :=
  lock_queryAll_collects lock.board5Absent
    (lock.Conn.mk (fun _ => none)
      (fun i => if i = 4 then ([], none) else ([0x80, i + 1], none)) 0 0 [])
    rfl rfl (by decide)

/-! ## Disconnecting twice -/

theorem lock_disconnect_state (closeErr : lock.Conn → Option Nat) (c : lock.Controller) :
    (lock.Controller.Disconnect closeErr c).2.isConnected = false := by
  unfold lock.Controller.Disconnect
  cases hc : c.isConnected with
  | false => simp [hc]
  | true => simp

theorem lock_disconnect_twice (e1 e2 : lock.Conn → Option Nat) (c : lock.Controller) :
    lock.Controller.Disconnect e2 (lock.Controller.Disconnect e1 c).2
      = ((none, []), (lock.Controller.Disconnect e1 c).2) := by
  have h := lock_disconnect_state e1 c
  generalize (lock.Controller.Disconnect e1 c).2 = c1 at h
  unfold lock.Controller.Disconnect
  simp [h]

theorem screen_disconnect_state (closeErr : lock.Conn → Option Nat) (c : screen.Controller) :
    (screen.Controller.Disconnect closeErr c).2.isConnected = false := by
  unfold screen.Controller.Disconnect
  cases hc : c.isConnected with
  | false => simp [hc]
  | true => simp

theorem screen_disconnect_twice (e1 e2 : lock.Conn → Option Nat) (c : screen.Controller) :
    screen.Controller.Disconnect e2 (screen.Controller.Disconnect e1 c).2
      = ((none, []), (screen.Controller.Disconnect e1 c).2) := by
  have h := screen_disconnect_state e1 c
  generalize (screen.Controller.Disconnect e1 c).2 = c1 at h
  unfold screen.Controller.Disconnect
  simp [h]

theorem rfid_stop_frame :
    rfid.generateStopCommand = some [0x5A, 0x00, 0x00, 0x01, 0x00, 0x00, 0x00, 0x9E, 0xA3] := by
  decide

/-- What `rfid.Reader.Disconnect` does on a reader that holds a handle: it writes the stop
frame, closes, keeps the handle and returns the error of `Close`. -/
theorem rfid_disconnect_with_handle (host : String) (port : Int) (antennas : List Int)
    (h : lock.Conn) (closeErr : lock.Conn → Option Nat) :
    rfid.Reader.Disconnect closeErr
        { host := host, port := port, conn := some h, antennas := antennas }
      = some ((closeErr
            { h with nWrites := h.nWrites + 1,
                     log := h.log ++ [lock.Op.write
                       [0x5A, 0x00, 0x00, 0x01, 0x00, 0x00, 0x00, 0x9E, 0xA3]] }).map lock.Err.io,
          { host := host, port := port, antennas := antennas,
            conn := some
              { h with nWrites := h.nWrites + 1,
                       log := h.log ++ [lock.Op.write
                         [0x5A, 0x00, 0x00, 0x01, 0x00, 0x00, 0x00, 0x9E, 0xA3],
                         lock.Op.close] } }) := by
  simp [rfid.Reader.Disconnect, rfid.Reader.Stop, rfid_stop_frame, lock.write_snd,
    lock.Conn.close, lock.Conn.note]

/-- C11, on the code: a second `Disconnect` is a no-op on the lock controller and on the
screen controller, which clear their handles and the connected flag. The RFID reader
keeps its handle: a second `Disconnect` writes the stop frame and closes again, so the
handle (and with it the reader) changes and the call returns whatever `Close` returns; on
a transport that refuses to close a handle twice it returns an error. -/
theorem disconnect_twice_rfid_repeats :
    (∀ (e1 e2 : lock.Conn → Option Nat) (c : lock.Controller),
      lock.Controller.Disconnect e2 (lock.Controller.Disconnect e1 c).2
        = ((none, []), (lock.Controller.Disconnect e1 c).2)) ∧
    (∀ (e1 e2 : lock.Conn → Option Nat) (c : screen.Controller),
      screen.Controller.Disconnect e2 (screen.Controller.Disconnect e1 c).2
        = ((none, []), (screen.Controller.Disconnect e1 c).2)) ∧
    (∀ (host : String) (port : Int) (antennas : List Int) (h : lock.Conn)
        (e1 e2 : lock.Conn → Option Nat),
      ∃ err1 r1 h1 err2 r2 h2,
        rfid.Reader.Disconnect e1
            { host := host, port := port, conn := some h, antennas := antennas }
          = some (err1, r1) ∧
        r1.conn = some h1 ∧
        rfid.Reader.Disconnect e2 r1 = some (err2, r2) ∧
        r2.conn = some h2 ∧
        h2.log = h1.log ++ [lock.Op.write
            [0x5A, 0x00, 0x00, 0x01, 0x00, 0x00, 0x00, 0x9E, 0xA3], lock.Op.close] ∧
        h2.nWrites = h1.nWrites + 1 ∧
        r2 ≠ r1) ∧
    ((rfid.Reader.Disconnect closeOnce connectedReader).bind
        (fun p => rfid.Reader.Disconnect closeOnce p.2)).map
        (fun p => (p.1, p.2.conn.map (fun h => h.log)))
      = some (some (lock.Err.io 5),
          some [lock.Op.write [0x5A, 0x00, 0x00, 0x01, 0x00, 0x00, 0x00, 0x9E, 0xA3],
            lock.Op.close,
            lock.Op.write [0x5A, 0x00, 0x00, 0x01, 0x00, 0x00, 0x00, 0x9E, 0xA3],
            lock.Op.close]) := by
  refine ⟨lock_disconnect_twice, screen_disconnect_twice, ?_, by decide⟩
  intro host port antennas h e1 e2
  refine ⟨_, _, _, _, _, _, rfid_disconnect_with_handle host port antennas h e1, rfl,
    rfid_disconnect_with_handle host port antennas _ e2, rfl, ?_, rfl, ?_⟩
  · simp
  · intro heq
    have hlog := congrArg (fun r : rfid.Reader => (r.conn.map (fun x => x.log.length))) heq
    simp at hlog

/-! ## The connection tests -/

theorem lock_query_frame :
    lock.generateQueryCommand = some [0x80, 0x01, 0x00, 0x33, 0xB2] := by decide

theorem write_result (h : lock.Conn) (data : List Nat) :
    (h.write data).1.2 = (h.wr h.nWrites).map lock.Err.io := by
  unfold lock.Conn.write
  split <;> rename_i hx <;> simp [hx]

/-- The outcome read off the transport is success exactly when the probe is answered, and
carries an error exactly when it is a failure. -/
theorem probeOutcome_spec (wrapDial : lock.Err → lock.Err) (dial : Except Nat lock.Conn) :
    ((probeOutcome wrapDial dial).1 = true ↔ lock.probeAnswered dial) ∧
    ((probeOutcome wrapDial dial).1 = true → (probeOutcome wrapDial dial).2 = none) ∧
    ((probeOutcome wrapDial dial).1 = false → (probeOutcome wrapDial dial).2 ≠ none) := by
  cases dial with
  | error code => simp [probeOutcome, lock.probeAnswered]
  | ok h =>
    cases hw : h.wr h.nWrites with
    | some code => simp [probeOutcome, lock.probeAnswered, hw]
    | none =>
      cases hr : (h.rd h.nReads).2 with
      | some code => simp [probeOutcome, lock.probeAnswered, hw, hr]
      | none =>
        cases hl : (h.rd h.nReads).1 with
        | nil => simp [probeOutcome, lock.probeAnswered, hw, hr, hl]
        | cons x xs => simp [probeOutcome, lock.probeAnswered, hw, hr, hl]

theorem sendOutcome_spec (wrapDial : lock.Err → lock.Err) (dial : Except Nat lock.Conn) :
    ((sendOutcome wrapDial dial).1 = true ↔ lock.probeSent dial) ∧
    ((sendOutcome wrapDial dial).1 = true → (sendOutcome wrapDial dial).2 = none) ∧
    ((sendOutcome wrapDial dial).1 = false → (sendOutcome wrapDial dial).2 ≠ none) := by
  cases dial with
  | error code => simp [sendOutcome, lock.probeSent]
  | ok h =>
    cases hw : h.wr h.nWrites with
    | some code => simp [sendOutcome, lock.probeSent, hw]
    | none => simp [sendOutcome, lock.probeSent, hw]

theorem read_fst_buf (h : lock.Conn) (n : Nat) :
    ∃ buf, (h.read n).1
      = (((h.rd h.nReads).1.take n).length, buf, (h.rd h.nReads).2.map lock.Err.io) :=
  ⟨_, lock.read_fst h n⟩

theorem flush_deadline (c : lock.Controller) :
    c.flushSerial.deadlineSocket = c.prepareRead := by
  unfold lock.Controller.flushSerial lock.Controller.deadlineSocket lock.Controller.prepareRead
  cases hs : c.serialConn with
  | some x => simp
  | none =>
    cases hk : c.socketConn with
    | some y => simp [hs, hk]
    | none => simp [hs, hk]

/-- The probe of the lock controller on a connected controller with a handle. -/
theorem lock_probe_eval (c : lock.Controller) (h : lock.Conn)
    (hc : c.isConnected = true) (hh : c.handle = some h) (wrapDial : lock.Err → lock.Err) :
    (lock.Controller.probe c).map (fun r => r.1) = some (probeOutcome wrapDial (Except.ok h)) := by
  have hq : c.Query
      = some ((h.wr h.nWrites).map lock.Err.io,
          c.withHandle (h.write [0x80, 0x01, 0x00, 0x33, 0xB2]).2) := by
    unfold lock.Controller.Query
    rw [lock_query_frame, hc]
    simp only [Bool.not_true, Bool.false_eq_true, if_false]
    rw [lock.write_eq c h hc hh, write_result]
  obtain ⟨hh1, hc1, hp1⟩ :=
    lock.withHandle_handle c h (h.write [0x80, 0x01, 0x00, 0x33, 0xB2]).2 hh
  unfold lock.Controller.probe
  rw [hq]
  cases hw : h.wr h.nWrites with
  | some code => simp [probeOutcome, hw]
  | none =>
    simp only [Option.map_none']
    rw [flush_deadline, lock.prepareRead_eq _ _ hh1, lock.withHandle_withHandle c h _ _ hh,
      lock.read_eq _ _ (by rw [(lock.withHandle_handle c h _ hh).2.1]; exact hc)
        (lock.withHandle_handle c h _ hh).1]
    obtain ⟨buf, hb⟩ := read_fst_buf
      ((h.write [0x80, 0x01, 0x00, 0x33, 0xB2]).2.note
        (c.withHandle (h.write [0x80, 0x01, 0x00, 0x33, 0xB2]).2).prepOp) 256
    rw [hb]
    have hrd : ((h.write [0x80, 0x01, 0x00, 0x33, 0xB2]).2.note
        (c.withHandle (h.write [0x80, 0x01, 0x00, 0x33, 0xB2]).2).prepOp).rd
          ((h.write [0x80, 0x01, 0x00, 0x33, 0xB2]).2.note
            (c.withHandle (h.write [0x80, 0x01, 0x00, 0x33, 0xB2]).2).prepOp).nReads
        = h.rd h.nReads := by
      rw [lock.write_snd]; rfl
    rw [hrd]
    cases hr : (h.rd h.nReads).2 with
    | some code => simp [probeOutcome, hw, hr]
    | none =>
      by_cases hn : 0 < ((h.rd h.nReads).1.take 256).length
      · simp only [Option.map_none', gt_iff_lt, if_pos hn, Option.map_some', probeOutcome, hw, hr]
      · simp only [Option.map_none', gt_iff_lt, if_neg hn, Option.map_some', probeOutcome, hw, hr]

/-- The pair that the connection test of a new lock controller returns. -/
theorem lock_testConnection_eval (connType : lock.ConnectionType) (path : String)
    (baudRate port : Int) (dial : Except Nat lock.Conn) (closeErr : lock.Conn → Option Nat) :
    (lock.Controller.TestConnection dial closeErr
        (lock.NewController connType path baudRate port)).map (fun r => r.1.1)
      = some (probeOutcome (lockWrap connType) dial) := by
  cases dial with
  | error code => cases connType <;> rfl
  | ok h =>
    have hconn : ∃ c1, (lock.NewController connType path baudRate port).Connect (Except.ok h)
        = (none, c1) ∧ c1.isConnected = true ∧ c1.handle = some h := by
      cases connType <;> exact ⟨_, rfl, rfl, rfl⟩
    obtain ⟨c1, h1, hc, hh⟩ := hconn
    have hp := lock_probe_eval c1 h hc hh (lockWrap connType)
    unfold lock.Controller.TestConnection
    rw [h1]
    simp only
    cases hpr : c1.probe with
    | none => rw [hpr] at hp; simp at hp
    | some r =>
      rw [hpr] at hp
      simp only [Option.map_some', Option.some.injEq] at hp
      simp only [Option.map_some', hp]

theorem rfid_power_frame :
    rfid.generateQueryPowerCommand
      = some [0x5A, 0x00, 0x00, 0x01, 0x00, 0x00, 0x00, 0x9E, 0xA3] := by
  decide

/-- The probe of the RFID reader on a reader with a handle. -/
theorem rfid_probe_eval (r : rfid.Reader) (h : lock.Conn) (hh : r.conn = some h)
    (wrapDial : lock.Err → lock.Err) :
    ∃ r2 h2, rfid.Reader.probe r = some (probeOutcome wrapDial (Except.ok h), r2) ∧
      r2.conn = some h2 := by
  have hq : r.QueryPower
      = some ((h.wr h.nWrites).map lock.Err.io,
          { r with conn := some (h.write [0x5A, 0x00, 0x00, 0x01, 0x00, 0x00, 0x00, 0x9E, 0xA3]).2 }) := by
    unfold rfid.Reader.QueryPower
    rw [hh, rfid_power_frame]
    simp only [write_result]
  unfold rfid.Reader.probe
  rw [hq]
  cases hw : h.wr h.nWrites with
  | some code =>
    refine ⟨rfid.Reader.mk r.host r.port
      (some (h.write [0x5A, 0x00, 0x00, 0x01, 0x00, 0x00, 0x00, 0x9E, 0xA3]).2) r.antennas,
      _, ?_, rfl⟩
    simp [probeOutcome, hw]
  | none =>
    simp only [Option.map_none']
    obtain ⟨buf, hb⟩ := read_fst_buf
      ((h.write [0x5A, 0x00, 0x00, 0x01, 0x00, 0x00, 0x00, 0x9E, 0xA3]).2.note
        lock.Op.setReadDeadline) 256
    rw [hb]
    have hrd : ((h.write [0x5A, 0x00, 0x00, 0x01, 0x00, 0x00, 0x00, 0x9E, 0xA3]).2.note
        lock.Op.setReadDeadline).rd
          ((h.write [0x5A, 0x00, 0x00, 0x01, 0x00, 0x00, 0x00, 0x9E, 0xA3]).2.note
            lock.Op.setReadDeadline).nReads
        = h.rd h.nReads := by
      rw [lock.write_snd]; rfl
    rw [hrd]
    refine ⟨rfid.Reader.mk r.host r.port
      (some (((h.write [0x5A, 0x00, 0x00, 0x01, 0x00, 0x00, 0x00, 0x9E, 0xA3]).2.note
        lock.Op.setReadDeadline).read 256).2) r.antennas, _, ?_, rfl⟩
    cases hr : (h.rd h.nReads).2 with
    | some code => simp [probeOutcome, hw, hr]
    | none =>
      by_cases hn : 0 < ((h.rd h.nReads).1.take 256).length
      · simp only [Option.map_none', gt_iff_lt, if_pos hn, probeOutcome, hw, hr]
      · simp only [Option.map_none', gt_iff_lt, if_neg hn, probeOutcome, hw, hr]

theorem rfid_disconnect_returns (r : rfid.Reader) (h : lock.Conn) (hh : r.conn = some h)
    (closeErr : lock.Conn → Option Nat) :
    ∃ p, rfid.Reader.Disconnect closeErr r = some p := by
  cases r with
  | mk host port conn antennas =>
    simp only at hh
    subst hh
    exact ⟨_, rfid_disconnect_with_handle host port antennas h closeErr⟩

/-- The pair that the connection test of a new RFID reader returns. -/
theorem rfid_testConnection_eval (host : String) (port : Int) (antennas : List Int)
    (dial : Except Nat lock.Conn) (closeErr : lock.Conn → Option Nat) :
    (rfid.Reader.TestConnection dial closeErr (rfid.NewReader host port antennas)).map
        (fun r => r.1)
      = some (probeOutcome lock.Err.socketConnectFailed dial) := by
  cases dial with
  | error code => rfl
  | ok h =>
    obtain ⟨r2, h2, hp, hc2⟩ := rfid_probe_eval
      { host := host, port := port, conn := some h, antennas := antennas } h rfl
      lock.Err.socketConnectFailed
    obtain ⟨p, hd⟩ := rfid_disconnect_returns r2 h2 hc2 closeErr
    unfold rfid.Reader.TestConnection
    simp only [rfid.Reader.Connect, rfid.NewReader, hp, hd, Option.map_some']

theorem screen_probe_frame :
    screen.generateCommand (lit "00") (lit "t0.txt=\"\"")
      = some [0xEE, 0x0B, 0xEE, 0x00, 0x74, 0x30, 0x2E, 0x74, 0x78, 0x74, 0x3D, 0x22, 0x22,
          0xFF, 0xFC] := by
  decide

/-- The pair that the connection test of a new screen controller returns, and the handles
it closed: after a successful dial the one handle, on which exactly the probe frame was
written before the close, and nothing was read. -/
theorem screen_testConnection_eval (connType : screen.ConnectionType) (path : String)
    (baudRate port : Int) (dial : Except Nat lock.Conn) (closeErr : lock.Conn → Option Nat) :
    (screen.Controller.TestConnection dial closeErr
        (screen.NewController connType path baudRate port)).map (fun r => r.1)
      = some (sendOutcome (screenWrap connType) dial,
          match dial with
          | Except.error _ => []
          | Except.ok h =>
            [{ h with
                nWrites := h.nWrites + 1,
                log := h.log ++ [lock.Op.write
                  [0xEE, 0x0B, 0xEE, 0x00, 0x74, 0x30, 0x2E, 0x74, 0x78, 0x74, 0x3D, 0x22,
                    0x22, 0xFF, 0xFC], lock.Op.close] }]) := by
  cases dial with
  | error code => cases connType <;> rfl
  | ok h =>
    cases hw : h.wr h.nWrites with
    | some code =>
      cases connType <;>
        simp [screen.Controller.TestConnection, screen.NewController,
          screen.Controller.Connect, screen.Controller.connectSerial,
          screen.Controller.connectSocket, screen.Controller.SendCommand,
          screen_probe_frame, screen.Controller.Write, write_result, hw, sendOutcome,
          screen.Controller.Disconnect, lock.write_snd, lock.Conn.close, lock.Conn.note]
    | none =>
      cases connType <;>
        simp [screen.Controller.TestConnection, screen.NewController,
          screen.Controller.Connect, screen.Controller.connectSerial,
          screen.Controller.connectSocket, screen.Controller.SendCommand,
          screen_probe_frame, screen.Controller.Write, write_result, hw, sendOutcome,
          screen.Controller.Disconnect, lock.write_snd, lock.Conn.close, lock.Conn.note]

theorem outcome_cases (o : Bool × Option lock.Err) (P : Prop)
    (h : (o.1 = true ↔ P) ∧ (o.1 = true → o.2 = none) ∧ (o.1 = false → o.2 ≠ none)) :
    (o.1 = true ∧ o.2 = none ∧ P) ∨ (o.1 = false ∧ o.2 ≠ none ∧ ¬ P) := by
  obtain ⟨h1, h2, h3⟩ := h
  cases hb : o.1 with
  | true => exact Or.inl ⟨rfl, h2 hb, h1.mp hb⟩
  | false =>
    refine Or.inr ⟨rfl, h3 hb, fun hP => ?_⟩
    have := h1.mpr hP
    rw [hb] at this
    exact Bool.noConfusion this

/-- C12 (amended): on a new lock controller and on a new RFID reader, for every transport
behaviour, `TestConnection` returns `(true, nil)` exactly when the dial succeeds, the
probe write succeeds and the read that follows succeeds with at least one byte; in every
other case (failed connect, failed write, failed read, read of zero bytes) it returns
false with an error. On a new screen controller `TestConnection` issues no read: it
returns `(true, nil)` exactly when the dial and the probe write succeed, and false with
an error otherwise; the one handle it closes carries the probe write and the close only. -/
theorem testConnection_success_condition (lockType : lock.ConnectionType)
    (screenType : screen.ConnectionType) (path : String) (baudRate port : Int)
    (antennas : List Int) (dial : Except Nat lock.Conn) (closeErr : lock.Conn → Option Nat) :
    (∃ b e closed c1,
      lock.Controller.TestConnection dial closeErr
          (lock.NewController lockType path baudRate port) = some (((b, e), closed), c1) ∧
      ((b = true ∧ e = none ∧ lock.probeAnswered dial) ∨
       (b = false ∧ e ≠ none ∧ ¬ lock.probeAnswered dial))) ∧
    (∃ b e r1,
      rfid.Reader.TestConnection dial closeErr (rfid.NewReader path port antennas)
        = some ((b, e), r1) ∧
      ((b = true ∧ e = none ∧ lock.probeAnswered dial) ∨
       (b = false ∧ e ≠ none ∧ ¬ lock.probeAnswered dial))) ∧
    (∃ b e closed c1,
      screen.Controller.TestConnection dial closeErr
          (screen.NewController screenType path baudRate port)
        = some (((b, e), closed), c1) ∧
      ((b = true ∧ e = none ∧ lock.probeSent dial) ∨
       (b = false ∧ e ≠ none ∧ ¬ lock.probeSent dial)) ∧
      closed = (match dial with
        | Except.error _ => []
        | Except.ok h =>
          [{ h with
              nWrites := h.nWrites + 1,
              log := h.log ++ [lock.Op.write
                [0xEE, 0x0B, 0xEE, 0x00, 0x74, 0x30, 0x2E, 0x74, 0x78, 0x74, 0x3D, 0x22,
                  0x22, 0xFF, 0xFC], lock.Op.close] }])) := by
  refine ⟨?_, ?_, ?_⟩
  · obtain ⟨r, hr, hx⟩ := Option.map_eq_some'.mp
      (lock_testConnection_eval lockType path baudRate port dial closeErr)
    refine ⟨r.1.1.1, r.1.1.2, r.1.2, r.2, hr, ?_⟩
    rw [hx]
    exact outcome_cases _ _ (probeOutcome_spec (lockWrap lockType) dial)
  · obtain ⟨r, hr, hx⟩ := Option.map_eq_some'.mp
      (rfid_testConnection_eval path port antennas dial closeErr)
    refine ⟨r.1.1, r.1.2, r.2, hr, ?_⟩
    rw [hx]
    exact outcome_cases _ _ (probeOutcome_spec lock.Err.socketConnectFailed dial)
  · obtain ⟨r, hr, hx⟩ := Option.map_eq_some'.mp
      (screen_testConnection_eval screenType path baudRate port dial closeErr)
    refine ⟨r.1.1.1, r.1.1.2, r.1.2, r.2, hr, ?_, ?_⟩
    · have h1 : r.1.1 = sendOutcome (screenWrap screenType) dial := by rw [hx]
      rw [h1]
      exact outcome_cases _ _ (sendOutcome_spec (screenWrap screenType) dial)
    · rw [hx]

/-- C12 as stated fails for the screen controller: on a transport that accepts the write
and then fails every read without delivering a byte, `TestConnection` returns
`(true, nil)`; the handle it closes saw the probe write and the close, and no read. -/
theorem screen_testConnection_without_response :
    (screen.Controller.TestConnection (Except.ok silentHandle) closeOnce
        (screen.NewController screen.ConnectionType.TypeSocket "192.168.1.101" 0 8080)).map
        (fun r => (r.1.1, r.1.2.map (fun h => (h.log, h.nReads))))
      = some ((true, none),
          [([lock.Op.write [0xEE, 0x0B, 0xEE, 0x00, 0x74, 0x30, 0x2E, 0x74, 0x78, 0x74, 0x3D,
              0x22, 0x22, 0xFF, 0xFC], lock.Op.close], 0)]) ∧
    ¬ lock.probeAnswered (Except.ok silentHandle) ∧
    ¬ (∀ (dial : Except Nat lock.Conn) (closeErr : lock.Conn → Option Nat),
        ∃ b e closed c1,
          screen.Controller.TestConnection dial closeErr
              (screen.NewController screen.ConnectionType.TypeSocket "192.168.1.101" 0 8080)
            = some (((b, e), closed), c1) ∧
          ((b = true ∧ e = none ∧ lock.probeAnswered dial) ∨
           (b = false ∧ e ≠ none ∧ ¬ lock.probeAnswered dial))) := by
  have hsilent : ¬ lock.probeAnswered (Except.ok silentHandle) := by
    simp [lock.probeAnswered, silentHandle]
  have heval : (screen.Controller.TestConnection (Except.ok silentHandle) closeOnce
        (screen.NewController screen.ConnectionType.TypeSocket "192.168.1.101" 0 8080)).map
        (fun r => (r.1.1, r.1.2.map (fun h => (h.log, h.nReads))))
      = some ((true, none),
          [([lock.Op.write [0xEE, 0x0B, 0xEE, 0x00, 0x74, 0x30, 0x2E, 0x74, 0x78, 0x74, 0x3D,
              0x22, 0x22, 0xFF, 0xFC], lock.Op.close], 0)]) := by
    decide
  refine ⟨heval, hsilent, fun hall => ?_⟩
  obtain ⟨b, e, closed, c1, hres, hcase⟩ := hall (Except.ok silentHandle) closeOnce
  rw [hres] at heval
  simp only [Option.map_some', Option.some.injEq, Prod.mk.injEq] at heval
  obtain ⟨⟨hb, _⟩, _⟩ := heval
  rcases hcase with ⟨_, _, hp⟩ | ⟨hf, _, _⟩
  · exact hsilent hp
  · rw [hb] at hf
    exact Bool.noConfusion hf

/-! ## The command type of an RFID frame -/

/-- C13: the frame of `buildRFIDCommand` does not depend on `cmdType`: two command types
give the same result on every `dataParams`; the stop command (type 0xFF) and the
power query (type 0x02) are the same byte sequence; and for a hex-encoded payload of at
most 65535 bytes the five header bytes are `5A 00 00 01 00` whatever the command type. -/
theorem rfid_frame_ignores_cmdType (t1 t2 : Nat) (payload : List Nat)
    (hp : ∀ b ∈ payload, b < 256) (hl : payload.length ≤ 65535) :
    (∀ dataParams, rfid.buildRFIDCommand t1 dataParams = rfid.buildRFIDCommand t2 dataParams) ∧
    rfid.buildRFIDCommand t1 (hexEncode payload) = rfid.buildRFIDCommand t2 (hexEncode payload) ∧
    (rfid.buildRFIDCommand t1 (hexEncode payload)).map (List.take 5)
      = some [0x5A, 0x00, 0x00, 0x01, 0x00] ∧
    rfid.generateStopCommand = rfid.generateQueryPowerCommand ∧
    rfid.generateStopCommand = some [0x5A, 0x00, 0x00, 0x01, 0x00, 0x00, 0x00, 0x9E, 0xA3] := by
  refine ⟨fun _ => rfl, rfl, ?_, rfl, rfid_stop_frame⟩
  rw [rfid_build_frame t1 payload hp hl]
  rfl

/-- Witness of C13 at the command types 0xFF and 0x02 with the empty payload. -/
theorem rfid_frame_ignores_cmdType_witness :
    (∀ dataParams,
      rfid.buildRFIDCommand 0xFF dataParams = rfid.buildRFIDCommand 0x02 dataParams) ∧
    rfid.buildRFIDCommand 0xFF (hexEncode []) = rfid.buildRFIDCommand 0x02 (hexEncode []) ∧
    (rfid.buildRFIDCommand 0xFF (hexEncode [])).map (List.take 5)
      = some [0x5A, 0x00, 0x00, 0x01, 0x00] ∧
    rfid.generateStopCommand = rfid.generateQueryPowerCommand ∧
    rfid.generateStopCommand = some [0x5A, 0x00, 0x00, 0x01, 0x00, 0x00, 0x00, 0x9E, 0xA3] :=
  rfid_frame_ignores_cmdType 0xFF 0x02 [] (by decide) (by decide)

end HardwareTest
